import Mathlib

/-!
# Verification of the Excel unit-test runner (snapshot / apply / evaluate / restore protocol)

This file is a shallow embedding of the core test-execution engine of the
repository: `src/scripts/test-runner.js` (single-test runner `runTest`) and
`src/unnamed/part_005` (suite runner `runTestSuite` together with
`runTestWithoutProtection`).  The helper functions `parseCellAddress`,
`snapshotWorksheetState`, `applyInputs`, `forceRecalculate`, `readOutputs` and
`evaluateAssertions` are textually identical in the two files and are embedded
once; `restoreState` differs between the two files (the suite file adds a
per-cell try/catch) and both variants are embedded.

Modelling conventions:
* JavaScript scalars are the inductive `Value` (numbers as rationals, plus a
  separate `nan` constructor so that `NaN === NaN` is `false`, strings,
  booleans, `null` and `undefined`).
* The host document (out of scope for the repository, consumed through the
  capability interface of the spec: `getSheet`, `getRange`, batched
  `values`/`formulas` load and write, `recalculate`, `sync`) is the structure
  `Doc`: a partial map from sheet names to total maps from local addresses to
  cell states, a host-side range-validity predicate `rangeOk` (the host may
  reject a range request for a given local address), and a fixed calculation
  oracle `env` giving the value the host computes for a formula placed in a
  given cell.  Writing a value clears the formula (as the source comments
  note); writing a formula sets the cell's value to the oracle's result;
  a full recalculation re-evaluates every formula cell against the oracle.
* Host reads of the `formulas` property return the formula string of a
  formula cell and the empty string for a plain cell.
* Execution state is `St`: the document plus an ordered trace of host /
  logging events.  `getItem` is a host capability call and is recorded in the
  trace (it throws synchronously for an unknown sheet, as the spec's
  interface `getSheet(name) -> SheetHandle | fails(SheetNotFound)` states,
  and as the source's try/catch structure around `getItem` assumes);
  `context.sync()` round trips and `application.calculate` requests are also
  recorded, and `console.error` calls are recorded as log events
  (informational `console.log` calls are not modelled).  Queued writes are
  modelled as taking effect when issued; every code path below separates
  issuing and reading by a `sync`, so this is observationally equivalent.
* JavaScript exceptions are modelled with `Except String` carrying the error
  message; state is threaded through both normal and exceptional exits
  (`ERes`), and `tryCatchR` / `tryFinallyR` model `try/catch` and
  `try/finally`.
-/

namespace XcelTest

/-- A JavaScript scalar as it appears in test files and cell reads:
a number (rationals; `nan` is kept separate so that `NaN === NaN` is false),
a string, a boolean, `null`, or `undefined`. -/
inductive Value : Type
  | num (q : ℚ)
  | nan
  | str (s : String)
  | bool (b : Bool)
  | null
  | undef
deriving DecidableEq

/-- `typeof v === 'number'` (NaN is a number in JavaScript). -/
def Value.isNumber : Value → Bool
  | .num _ => true
  | .nan => true
  | _ => false

/-- `typeof v === 'string'`. -/
def Value.isString : Value → Bool
  | .str _ => true
  | _ => false

/-- `typeof v === 'boolean'`. -/
def Value.isBool : Value → Bool
  | .bool _ => true
  | _ => false

/-- JavaScript strict equality `===` on scalars: `NaN === NaN` is false,
values of different types are never equal. -/
def jsStrictEq : Value → Value → Bool
  | .num a, .num b => decide (a = b)
  | .str a, .str b => a == b
  | .bool a, .bool b => a == b
  | .null, .null => true
  | Value.undef, Value.undef => true
  | _, _ => false

/-- Rational subtraction written through `mkRat` so that it reduces inside
the kernel (the library's `Rat.sub` is `@[irreducible]`); `ratSub_eq_sub`
below proves it equal to ordinary subtraction. -/
def ratSub (a b : ℚ) : ℚ := mkRat (a.num * b.den - b.num * a.den) (a.den * b.den)

/-- Kernel-reducible absolute value on `ℚ`; `ratAbs_eq_abs` below proves it
equal to `|·|`. -/
def ratAbs (a : ℚ) : ℚ := if a.num < 0 then Rat.neg a else a

/-- Kernel-reducible `≤` test on `ℚ`; `ratLeB_eq_le` below proves it equal
to `decide (a ≤ b)`. -/
def ratLeB (a b : ℚ) : Bool := decide (a.num * b.den ≤ b.num * a.den)

/-- `Math.abs(a - b)` on two scalars known to satisfy `typeof === 'number'`;
if either side is `NaN` the result is `NaN`. -/
def jsAbsSub : Value → Value → Value
  | .num a, .num b => .num (ratAbs (ratSub a b))
  | _, _ => .nan

/-- `a - b` (signed, as computed by `runTestWithoutProtection`); `NaN` if
either side is `NaN`. -/
def jsSub : Value → Value → Value
  | .num a, .num b => .num (ratSub a b)
  | _, _ => .nan

/-- `d <= t` where `d` is a number-typed scalar and `t` a rational tolerance:
any comparison with `NaN` is false. -/
def jsLeNum : Value → ℚ → Bool
  | .num d, t => ratLeB d t
  | _, _ => false

/-- Digit run of a decimal literal read as a natural number. -/
def digitsToNat (cs : List Char) : ℕ :=
  cs.foldl (fun n c => 10 * n + (c.toNat - 48)) 0

/-- A simplified model of JavaScript `parseFloat` for plain decimal literals:
optional sign, an integer part and an optional fractional part are parsed
from the front of the string; anything else yields `NaN`.  (Exponents,
leading whitespace and `Infinity` are not modelled; no claim depends on
them.) -/
def jsParseFloat (s : String) : Value :=
  let cs := s.toList
  let signAndRest : ℤ × List Char :=
    match cs with
    | '-' :: r => (-1, r)
    | '+' :: r => (1, r)
    | _ => (1, cs)
  let ds := signAndRest.2.takeWhile Char.isDigit
  let rest := signAndRest.2.dropWhile Char.isDigit
  let fs :=
    match rest with
    | '.' :: r => r.takeWhile Char.isDigit
    | _ => []
  if ds.isEmpty && fs.isEmpty then .nan
  else
    .num (mkRat
      (signAndRest.1 * ((digitsToNat ds : ℤ) * 10 ^ fs.length + (digitsToNat fs : ℤ)))
      (10 ^ fs.length))

/-- Rendering of a scalar inside a template literal (used only to build the
default assertion message; no claim inspects the text).  Numbers are shown
as rationals, which is a simplification of JavaScript number formatting. -/
def Value.display : Value → String
  | .num q => toString q
  | .nan => "NaN"
  | .str s => s
  | .bool b => if b then "true" else "false"
  | .null => "null"
  | Value.undef => "undefined"

/-- The state of one cell: its value and its formula (`none` when the cell
has no formula). -/
structure CellState : Type where
  value : Value
  formula : Option String
deriving DecidableEq

/-- The host workbook: a partial map from sheet names to sheets (total maps
from local address to cell state), the host's range-validity predicate
(`getRange` rejects a local address `a` on sheet `w` when `rangeOk w a` is
false), and the host's calculation oracle `env w a f`: the value the host
computes for formula `f` placed at cell `a` of sheet `w`.  `rangeOk` and
`env` are fixed host behaviour and are never modified by the engine. -/
structure Doc : Type where
  sheets : String → Option (String → CellState)
  rangeOk : String → String → Bool
  env : String → String → String → Value

/-- Read a cell; `none` when the sheet does not exist. -/
def Doc.cellAt (d : Doc) (w a : String) : Option CellState :=
  (d.sheets w).map (fun sh => sh a)

/-- Overwrite one cell of an existing sheet (no-op when the sheet does not
exist — unreachable in the engine, which fetches the sheet first). -/
def Doc.setCell (d : Doc) (w a : String) (cs : CellState) : Doc :=
  { d with
    sheets := fun w' =>
      if w' = w then
        (d.sheets w').map (fun sh => fun a' => if a' = a then cs else sh a')
      else d.sheets w' }

/-- A full host recalculation: every formula cell's value is recomputed by
the oracle; plain cells are untouched. -/
def Doc.recalcAll (d : Doc) : Doc :=
  { d with
    sheets := fun w =>
      (d.sheets w).map (fun sh => fun a =>
        match (sh a).formula with
        | some f => { value := d.env w a f, formula := some f }
        | none => sh a) }

/-- Observable host / logging events, in issue order. -/
inductive HEvent : Type
  | getItem (ws : String)
  | syncEv
  | recalcEv
  | logEv (msg : String)
deriving DecidableEq

/-- Execution state: the document plus the event trace. -/
structure St : Type where
  doc : Doc
  trace : List HEvent

/-- Decidable equality of `Except` outcomes (used to evaluate concrete
runs). -/
instance {ε α : Type} [DecidableEq ε] [DecidableEq α] : DecidableEq (Except ε α) := fun a b =>
  match a, b with
  | .ok x, .ok y =>
      match decEq x y with
      | isTrue h => isTrue (by rw [h])
      | isFalse h => isFalse (by intro hc; cases hc; exact h rfl)
  | .error x, .error y =>
      match decEq x y with
      | isTrue h => isTrue (by rw [h])
      | isFalse h => isFalse (by intro hc; cases hc; exact h rfl)
  | .ok _, .error _ => isFalse (by intro hc; cases hc)
  | .error _, .ok _ => isFalse (by intro hc; cases hc)

/-- Result of running an effectful fragment: a JavaScript outcome (normal
value or thrown error message) together with the state at exit. -/
def ERes (α : Type) : Type := Except String α × St

/-- Append one event to the trace. -/
def St.emit (st : St) (ev : HEvent) : St :=
  { st with trace := st.trace ++ [ev] }

/-- Host error message for `worksheets.getItem` on an unknown sheet
(modelled message; the engine only wraps it). -/
def itemNotFoundMsg (ws : String) : String :=
  "Worksheet not found: " ++ ws

/-- Host error message for `getRange` on a rejected local address
(modelled message; the engine only wraps it). -/
def invalidRangeMsg (a : String) : String :=
  "Invalid range address: " ++ a

/-- `workbook.worksheets.getItem(ws)`: a host capability call, recorded in
the trace; throws synchronously when the sheet does not exist. -/
def getItemW (ws : String) : St → ERes Unit := fun st =>
  match st.doc.sheets ws with
  | some _ => (.ok (), st.emit (.getItem ws))
  | none => (.error (itemNotFoundMsg ws), st.emit (.getItem ws))

/-- `worksheet.getRange(a)` on sheet `ws`: throws when the host rejects the
local address. -/
def getRangeW (ws a : String) : St → ERes Unit := fun st =>
  if st.doc.rangeOk ws a then (.ok (), st)
  else (.error (invalidRangeMsg a), st)

/-- `range.values = [[v]]`: sets the value and clears any formula (as the
source comments note, a value write overwrites an existing formula). -/
def writeValueW (ws a : String) (v : Value) : St → ERes Unit := fun st =>
  (.ok (), { st with doc := st.doc.setCell ws a { value := v, formula := none } })

/-- `range.formulas = [[f]]`: sets the formula; the host computes the cell's
value with its calculation oracle. -/
def writeFormulaW (ws a f : String) : St → ERes Unit := fun st =>
  (.ok (),
    { st with doc := st.doc.setCell ws a { value := st.doc.env ws a f, formula := some f } })

/-- `await context.sync()`: one host round trip, recorded in the trace. -/
def syncW : St → ERes Unit := fun st => (.ok (), st.emit .syncEv)

/-- `application.calculate(Excel.CalculationType.full)`: recorded, and the
document's formula cells are re-evaluated. -/
def recalcW : St → ERes Unit := fun st =>
  (.ok (), { doc := (st.emit .recalcEv).doc.recalcAll, trace := (st.emit .recalcEv).trace })

/-- `console.error(...)`: recorded as a log event. -/
def logErrW (msg : String) : St → ERes Unit := fun st => (.ok (), st.emit (.logEv msg))

/-- Sequencing of two effectful fragments (exceptions short-circuit,
state is kept). -/
def seqR {α β : Type} (m : St → ERes α) (f : α → St → ERes β) : St → ERes β := fun st =>
  match m st with
  | (.ok a, st') => f a st'
  | (.error e, st') => (.error e, st')

/-- `try { m } catch (e) { h(e) }`. -/
def tryCatchR {α : Type} (m : St → ERes α) (h : String → St → ERes α) : St → ERes α := fun st =>
  match m st with
  | (.ok a, st') => (.ok a, st')
  | (.error e, st') => h e st'

/-- `try { m } finally { fin }`: the finaliser runs on both exits; an error
thrown by the finaliser replaces the original outcome (JavaScript
semantics). -/
def tryFinallyR {α : Type} (m : St → ERes α) (fin : St → ERes Unit) : St → ERes α := fun st =>
  match m st with
  | (.ok a, st') =>
      (match fin st' with
       | (.ok _, st'') => (.ok a, st'')
       | (.error e2, st'') => (.error e2, st''))
  | (.error e, st') =>
      (match fin st' with
       | (.ok _, st'') => (.error e, st'')
       | (.error e2, st'') => (.error e2, st''))

/-- The error message thrown by `parseCellAddress` for a malformed address. -/
def invalidAddrMsg (x : String) : String :=
  "Invalid cell address format: " ++ x ++ ". Expected format: \"SheetName!A1\""

/-- `fullAddress.split('!')` for the single-character separator `'!'`,
implemented by structural recursion over the characters (so that concrete
runs reduce inside the kernel); it agrees with JavaScript `split`:
`"" → [""]`, `"a!b" → ["a","b"]`, `"a!" → ["a",""]`, `"a!!b" → ["a","","b"]`. -/
def splitOnBang : List Char → List (List Char)
  | [] => [[]]
  | c :: rest =>
      let r := splitOnBang rest
      if c = '!' then [] :: r
      else
        match r with
        | [] => [[c]]
        | h :: t => (c :: h) :: t

/-- `parseCellAddress` (identical in `src/scripts/test-runner.js` and
`src/unnamed/part_005`): splits on `'!'` and requires exactly two parts,
otherwise throws `Invalid cell address format`. -/
def parseCellAddress (fullAddress : String) : Except String (String × String) :=
  match (splitOnBang fullAddress.toList).map (fun l => String.mk l) with
  | [worksheetName, cellAddress] => .ok (worksheetName, cellAddress)
  | _ => .error (invalidAddrMsg fullAddress)

/-- Insert a value into an insertion-ordered grouping, mirroring the
`cellsByWorksheet[ws].push(x)` pattern on a plain JavaScript object (key
order is insertion order, values are pushed at the end). -/
def addGroup {α : Type} : List (String × List α) → String → α → List (String × List α)
  | [], k, v => [(k, [v])]
  | (k', vs) :: rest, k, v =>
      if k' = k then (k', vs ++ [v]) :: rest else (k', vs) :: addGroup rest k v

/-- The grouping loop shared by `snapshotWorksheetState`: parses every full
address in order (throwing on the first malformed one, before any host
interaction) and groups the local addresses by worksheet. -/
def groupAddrs : List String → List (String × List String) →
    Except String (List (String × List String))
  | [], acc => .ok acc
  | x :: xs, acc =>
      match parseCellAddress x with
      | .error e => .error e
      | .ok (w, c) => groupAddrs xs (addGroup acc w c)

/-- The grouping loop shared by `applyInputs` and both `restoreState`
variants: like `groupAddrs` but each full address carries a payload (the
input value, or the snapshot entry). -/
def groupPairs {α : Type} : List (String × α) → List (String × List (String × α)) →
    Except String (List (String × List (String × α)))
  | [], acc => .ok acc
  | (x, v) :: xs, acc =>
      match parseCellAddress x with
      | .error e => .error e
      | .ok (w, c) => groupPairs xs (addGroup acc w (c, v))

/-- A snapshot as built by `snapshotWorksheetState`: full address (rebuilt as
`ws + "!" + local`) mapped to the captured cell state, in capture order. -/
abbrev Snapshot : Type := List (String × CellState)

/-- One captured entry: `{ value: range.values[0][0],
formula: range.formulas[0][0] || null }` — the host's `formulas` read
returns the formula string for a formula cell and `""` for a plain cell, and
`|| null` turns the empty string into `null`. -/
def captureState (cs : CellState) : CellState :=
  { value := cs.value
    formula :=
      match cs.formula with
      | some f => if f = "" then none else some f
      | none => none }

/-- The per-cell `getRange` / `load` loop of `snapshotWorksheetState` for
one worksheet (loads queue reads and are not separately observable). -/
def rangeLoop (ws : String) : List String → St → ERes Unit
  | [], st => (.ok (), st)
  | c :: cs, st =>
      match getRangeW ws c st with
      | (.ok _, st') => rangeLoop ws cs st'
      | (.error e, st') => (.error e, st')

/-- Step 1 of `snapshotWorksheetState` for one worksheet group:
`try { getItem(ws); for each cell: getRange(c); range.load(...) } catch (e)
{ throw Failed to access worksheet ... }`. -/
def snapCheckGroup (ws : String) (cells : List String) : St → ERes Unit :=
  tryCatchR
    (seqR (getItemW ws) (fun _ => rangeLoop ws cells))
    (fun e => fun st =>
      (.error ("Failed to access worksheet \"" ++ ws ++ "\": " ++ e), st))

/-- Step 1 of `snapshotWorksheetState` over all worksheet groups. -/
def snapCheck : List (String × List String) → St → ERes Unit
  | [], st => (.ok (), st)
  | (ws, cells) :: rest, st =>
      match snapCheckGroup ws cells st with
      | (.ok _, st') => snapCheck rest st'
      | (.error e, st') => (.error e, st')

/-- The `(ws, entry)` pairs of a worksheet grouping in the order the
parallel arrays `fullAddresses` / `ranges` are pushed (generic in the
per-cell payload: the snapshot loop has plain local addresses, the
apply/restore loops carry a value or state). -/
def flattenGroups {α : Type} (gs : List (String × List α)) : List (String × α) :=
  gs.flatMap (fun g => g.2.map (fun c => (g.1, c)))

/-- `snapshotWorksheetState` (identical in both files): group all addresses
by worksheet (parsing each, before any host call), fetch every range and
load its `values`/`formulas` (per-worksheet try/catch wrapping failures as
`Failed to access worksheet`), `sync`, then extract `{value, formula}` per
cell through the index-aligned parallel arrays, keyed by the rebuilt full
address. -/
def snapshotWorksheetState (cellAddresses : List String) : St → ERes Snapshot := fun st =>
  match groupAddrs cellAddresses [] with
  | .error e => (.error e, st)
  | .ok groups =>
      match snapCheck groups st with
      | (.error e, st') => (.error e, st')
      | (.ok _, st') =>
          let st'' := st'.emit .syncEv
          (.ok ((flattenGroups groups).map (fun p =>
            (p.1 ++ "!" ++ p.2,
             captureState ((st''.doc.cellAt p.1 p.2).getD { value := Value.undef, formula := none })))),
           st'')

/-- The per-cell write loop of `applyInputs` for one worksheet:
`getRange` then `range.values = [[value]]` for each input. -/
def applyCellLoop (ws : String) : List (String × Value) → St → ERes Unit
  | [], st => (.ok (), st)
  | (c, v) :: cs, st =>
      match getRangeW ws c st with
      | (.ok _, st') =>
          (match writeValueW ws c v st' with
           | (_, st'') => applyCellLoop ws cs st'')
      | (.error e, st') => (.error e, st')

/-- Inner loop of `applyInputs` for one worksheet group: `getItem`, then per
input `getRange` and `range.values = [[value]]`, the whole group wrapped in
`try ... catch` re-throwing `Failed to apply input to worksheet`. -/
def applyGroup (ws : String) (cells : List (String × Value)) : St → ERes Unit :=
  tryCatchR
    (seqR (getItemW ws) (fun _ => applyCellLoop ws cells))
    (fun e => fun st =>
      (.error ("Failed to apply input to worksheet \"" ++ ws ++ "\": " ++ e), st))

/-- Worksheet loop of `applyInputs`. -/
def applyLoop : List (String × List (String × Value)) → St → ERes Unit
  | [], st => (.ok (), st)
  | (ws, cells) :: rest, st =>
      match applyGroup ws cells st with
      | (.ok _, st') => applyLoop rest st'
      | (.error e, st') => (.error e, st')

/-- `applyInputs` (identical in both files): group inputs by worksheet
(parsing each address first), write each value sheet by sheet, then `sync`.
A thrown error skips the final `sync`. -/
def applyInputs (inputs : List (String × Value)) : St → ERes Unit := fun st =>
  match groupPairs inputs [] with
  | .error e => (.error e, st)
  | .ok groups =>
      match applyLoop groups st with
      | (.error e, st') => (.error e, st')
      | (.ok _, st') => (.ok (), st'.emit .syncEv)

/-- `forceRecalculate` (identical in both files):
`application.calculate(full)` then `sync` (the fixed 100 ms settle delay has
no observable effect in this model). -/
def forceRecalculate : St → ERes Unit := fun st =>
  match recalcW st with
  | (_, st') => (.ok (), st'.emit .syncEv)

/-- Step 1 of `readOutputs`: per assertion cell
`try { parse; getItem; getRange; load } catch (e) { throw Failed to read
output from cell ... }`, accumulating `(fullAddress, ws, local)` in push
order.  Unlike the other operations, parsing here is interleaved with the
per-cell host lookups. -/
def readCheck : List String → List (String × String × String) → St →
    ERes (List (String × String × String))
  | [], acc, st => (.ok acc, st)
  | x :: xs, acc, st =>
      match
        (tryCatchR
          (fun st =>
            match parseCellAddress x with
            | .error e => (.error e, st)
            | .ok (w, c) =>
                match getItemW w st with
                | (.error e, st') => (.error e, st')
                | (.ok _, st') =>
                    match getRangeW w c st' with
                    | (.error e, st'') => (.error e, st'')
                    | (.ok _, st'') => (.ok (w, c), st''))
          (fun e => fun st =>
            (.error ("Failed to read output from cell \"" ++ x ++ "\": " ++ e), st))) st
      with
      | (.error e, st') => (.error e, st')
      | (.ok (w, c), st') => readCheck xs (acc ++ [(x, w, c)]) st'

/-- `readOutputs` (identical in both files): fetch and load every assertion
cell (per-cell try/catch), `sync`, then extract `range.values[0][0]` through
the parallel arrays, keyed by the original full address string. -/
def readOutputs (assertionCells : List String) : St → ERes (List (String × Value)) := fun st =>
  match readCheck assertionCells [] st with
  | (.error e, st') => (.error e, st')
  | (.ok triples, st') =>
      let st'' := st'.emit .syncEv
      (.ok (triples.map (fun t =>
        (t.1, ((st''.doc.cellAt t.2.1 t.2.2).getD { value := Value.undef, formula := none }).value))),
       st'')

/-- An assertion of a test case: `{ cell, equals, tolerance?, message? }`
(`tolerance` and `message` may be absent in the JSON). -/
structure Assertion : Type where
  cell : String
  equals : Value
  tolerance : Option ℚ
  message : Option String
deriving DecidableEq

/-- A test case: `{ name, inputs, assertions }`.  An absent `inputs` object
behaves exactly like an empty one in every code path the claims touch, and
is modelled as the empty list; an absent `name` is modelled as `""` (both
are falsy, so `name || default` behaves identically). -/
structure TestCase : Type where
  name : String
  inputs : List (String × Value)
  assertions : List Assertion
deriving DecidableEq

/-- `s || d` for strings (`""` is falsy). -/
def jsOrStr (s d : String) : String := if s = "" then d else s

/-- One per-assertion result object.  The two evaluation paths in the source
build objects with different key sets, so optional fields model absent keys:
`evaluateAssertions` never sets `message`, while `runTestWithoutProtection`
sets all fields but leaves `difference`/`tolerance` null for non-numeric
comparisons (null and absent are both `none`). -/
structure AssertionResult : Type where
  cell : String
  expected : Value
  actual : Value
  tolerance : Option Value
  difference : Option Value
  passed : Bool
  message : Option String
deriving DecidableEq

/-- A test result.  The source produces three object shapes:
`runTest` in `src/scripts/test-runner.js` has key `testName` and no `error`
key; the normal path of `runTestWithoutProtection` in `src/unnamed/part_005`
has key `name` and `error: null`; the error path of `runTestSuite` has key
`testName` and a non-null `error`.  Absent keys (and JavaScript `null` for
`error`) are modelled as `none`. -/
structure TestResult : Type where
  testName : Option String
  name : Option String
  passed : Bool
  assertionResults : List AssertionResult
  error : Option String
deriving DecidableEq

/-- `{ results, passedCount, totalCount }`. -/
structure SuiteResult : Type where
  results : List TestResult
  passedCount : ℕ
  totalCount : ℕ
deriving DecidableEq

/-- `outputs[cell]`: JavaScript property access, `undefined` when absent. -/
def lookupOut (outputs : List (String × Value)) (cell : String) : Value :=
  (outputs.lookup cell).getD Value.undef

/-- `evaluateAssertions` applied to one assertion (the body of its loop):
tolerance defaults to 0 (`assertion.tolerance || 0`); a missing/null actual
fails with null difference; two numbers compare by
`|actual - expected| <= tolerance`; anything else by strict equality (the
inner `difference` recomputation in the else-branch is kept although both
operands can no longer be numbers there). -/
def evalOne (outputs : List (String × Value)) (assertion : Assertion) : AssertionResult :=
  let expected := assertion.equals
  let tolerance := assertion.tolerance.getD 0
  let actual := lookupOut outputs assertion.cell
  let pd : Bool × Option Value :=
    if actual = Value.undef || actual = .null then
      (false, none)
    else if actual.isNumber && expected.isNumber then
      let difference := jsAbsSub actual expected
      (jsLeNum difference tolerance, some difference)
    else
      let passed := jsStrictEq actual expected
      (passed,
       if !passed && actual.isNumber && expected.isNumber then some (jsAbsSub actual expected)
       else none)
  { cell := assertion.cell
    expected := expected
    actual := actual
    tolerance := some (.num tolerance)
    difference := pd.2
    passed := pd.1
    message := none }

/-- `evaluateAssertions` (identical in both files): a pure fold producing
`{ allPassed, results }`. -/
def evaluateAssertions (outputs : List (String × Value)) (assertions : List Assertion) :
    Bool × List AssertionResult :=
  (assertions.all (fun a => (evalOne outputs a).passed), assertions.map (evalOne outputs))

/-- The write of one snapshot entry, shared by both `restoreState` variants:
`getRange`, then `range.formulas = [[f]]` when the captured formula is
truthy and non-empty, otherwise `range.values = [[value]]`. -/
def restoreCellWrite (ws a : String) (state : CellState) : St → ERes Unit :=
  seqR (getRangeW ws a) (fun _ =>
    match state.formula with
    | some f => if f = "" then writeValueW ws a state.value else writeFormulaW ws a f
    | none => writeValueW ws a state.value)

/-- Per-worksheet loop of `restoreState` in `src/scripts/test-runner.js`:
`getItem`, then every cell write in order, with NO per-cell try — the only
catch is at worksheet level, so a failing cell write throws out of the
worksheet loop. -/
def restoreWsCells (ws : String) : List (String × CellState) → St → ERes Unit
  | [], st => (.ok (), st)
  | (a, state) :: rest, st =>
      match restoreCellWrite ws a state st with
      | (.ok _, st') => restoreWsCells ws rest st'
      | (.error e, st') => (.error e, st')

/-- Worksheet loop of `restoreState` in `src/scripts/test-runner.js`:
per worksheet `try { getItem; every cell write } catch (e)
{ console.error(...) }` — note the catch is per worksheet, not per cell. -/
def restoreWsLoop : List (String × List (String × CellState)) → St → ERes Unit
  | [], st => (.ok (), st)
  | (ws, cells) :: rest, st =>
      match
        (tryCatchR
          (seqR (getItemW ws) (fun _ => restoreWsCells ws cells))
          (fun e =>
            logErrW ("Failed to restore cell in worksheet \"" ++ ws ++ "\": " ++ e))) st
      with
      | (_, st') => restoreWsLoop rest st'

/-- `restoreState` of `src/scripts/test-runner.js`, assembled: grouping,
worksheet loop, final `sync`.  It always returns normally once the grouping
has parsed (every loop error is caught and logged). -/
def restoreState (snapshot : Snapshot) : St → ERes Unit := fun st =>
  match groupPairs snapshot [] with
  | .error e => (.error e, st)
  | .ok groups =>
      match restoreWsLoop groups st with
      | (_, st') => (.ok (), st'.emit .syncEv)

/-- Per-worksheet loop of `restoreState` in `src/unnamed/part_005`: like the
scripts variant but each cell write is additionally wrapped in its own
`try ... catch (cellError) { console.error(...) }`, so one failing cell does
not abort the rest of the worksheet. -/
def restoreWsCells5 (ws : String) : List (String × CellState) → St → ERes Unit
  | [], st => (.ok (), st)
  | (a, state) :: rest, st =>
      match
        (tryCatchR (restoreCellWrite ws a state)
          (fun e => logErrW ("Failed to restore cell " ++ a ++ ": " ++ e))) st
      with
      | (_, st') => restoreWsCells5 ws rest st'

/-- Worksheet loop of `restoreState` in `src/unnamed/part_005`:
per-worksheet try/catch around `getItem` and the per-cell writes (which have
their own inner catches). -/
def restoreWsLoop5 : List (String × List (String × CellState)) → St → ERes Unit
  | [], st => (.ok (), st)
  | (ws, cells) :: rest, st =>
      match
        (tryCatchR
          (seqR (getItemW ws) (fun _ => restoreWsCells5 ws cells))
          (fun e => logErrW ("Failed to restore worksheet \"" ++ ws ++ "\": " ++ e))) st
      with
      | (_, st') => restoreWsLoop5 rest st'

/-- `restoreState` of `src/unnamed/part_005`, assembled: grouping, worksheet
loop (with the per-cell and per-worksheet catches), final `sync`. -/
def restoreState5 (snapshot : Snapshot) : St → ERes Unit := fun st =>
  match groupPairs snapshot [] with
  | .error e => (.error e, st)
  | .ok groups =>
      match restoreWsLoop5 groups st with
      | (_, st') => (.ok (), st'.emit .syncEv)

/-- The protected-address set of one test: a JavaScript `Set` filled with
the input cell addresses and then the assertion cells, iterated in
insertion order. -/
def addUnique (xs : List String) (x : String) : List String :=
  if x ∈ xs then xs else xs ++ [x]

/-- `runTest`'s address collection (insertion-ordered, deduplicated). -/
def collectAddresses (tc : TestCase) : List String :=
  (tc.inputs.map Prod.fst ++ tc.assertions.map Assertion.cell).foldl addUnique []

/-- The mutate / recalculate / read / evaluate body of `runTest`
(`src/scripts/test-runner.js`, the region protected by `try ... finally`). -/
def runTestBody (tc : TestCase) : St → ERes TestResult := fun st =>
  match (if tc.inputs.isEmpty then (.ok (), st) else applyInputs tc.inputs st) with
  | (.error e, st1) => (.error e, st1)
  | (.ok _, st1) =>
      match forceRecalculate st1 with
      | (.error e, st2) => (.error e, st2)
      | (.ok _, st2) =>
          match readOutputs (tc.assertions.map Assertion.cell) st2 with
          | (.error e, st3) => (.error e, st3)
          | (.ok outputs, st3) =>
              let ev := evaluateAssertions outputs tc.assertions
              (.ok
                { testName := some (jsOrStr tc.name "Unnamed Test")
                  name := none
                  passed := ev.1
                  assertionResults := ev.2
                  error := none }, st3)

/-- `runTest` (`src/scripts/test-runner.js`): collect the protected
addresses, snapshot (re-throwing a capture failure as
`Failed to snapshot state`, before the try/finally region — so no restore is
attempted), then run the body with a `finally` that restores, catching and
logging any restore failure instead of re-throwing it. -/
def runTest (tc : TestCase) : St → ERes TestResult := fun st =>
  match snapshotWorksheetState (collectAddresses tc) st with
  | (.error e, st1) => (.error ("Failed to snapshot state: " ++ e), st1)
  | (.ok snapshot, st1) =>
      tryFinallyR (runTestBody tc)
        (tryCatchR (restoreState snapshot)
          (fun e => logErrW ("Warning: Failed to restore state: " ++ e)))
        st1

/-- `s.toLowerCase()` (ASCII case folding, sufficient for the `'true'`
comparison below), character by character so concrete runs reduce in the
kernel. -/
def jsToLower (s : String) : String :=
  String.mk (s.toList.map Char.toLower)

/-- The per-assertion expected-value conversion of
`runTestWithoutProtection` (`src/unnamed/part_005`): a numeric actual with a
string expected goes through `parseFloat`; a boolean actual triggers
`expectedValue.toLowerCase() === 'true'`, which throws a `TypeError` when
the expected value is not a string. -/
def convertExpected (actual expected : Value) : Except String Value :=
  if actual.isNumber && expected.isString then
    match expected with
    | .str s => .ok (jsParseFloat s)
    | _ => .ok expected
  else if actual.isBool then
    match expected with
    | .str s => .ok (.bool (jsToLower s == "true"))
    | _ => .error "TypeError: expectedValue.toLowerCase is not a function"
  else
    .ok expected

/-- The assertion-evaluation loop of `runTestWithoutProtection`: converts
the expected value, decides `passed` by STRICT equality
(`actualValue === expectedValue` — the tolerance is stored in the result but
not used for `passed`), and records a signed `difference` and the tolerance
only when both values are numbers.  The loop neither reads nor writes the
document, so it is a pure `Except`. -/
def evalLoop (outputs : List (String × Value)) :
    List Assertion → Except String (List AssertionResult)
  | [] => .ok []
  | assertion :: rest =>
      let actualValue := lookupOut outputs assertion.cell
      match convertExpected actualValue assertion.equals with
      | .error e => .error e
      | .ok expectedValue =>
          let passed := jsStrictEq actualValue expectedValue
          let dt : Option Value × Option Value :=
            if actualValue.isNumber && expectedValue.isNumber then
              (some (jsSub actualValue expectedValue),
               some (.num (assertion.tolerance.getD 0)))
            else (none, none)
          match evalLoop outputs rest with
          | .error e => .error e
          | .ok results =>
              .ok
                ({ cell := assertion.cell
                   expected := expectedValue
                   actual := actualValue
                   tolerance := dt.2
                   difference := dt.1
                   passed := passed
                   message := some (assertion.message.getD
                     ("Cell " ++ assertion.cell ++ " should be " ++ expectedValue.display)) }
                 :: results)

/-- The apply / recalculate / read phases of `runTestWithoutProtection`. -/
def rtwpPhases (tc : TestCase) : St → ERes (List (String × Value)) := fun st =>
  match (if tc.inputs.isEmpty then (.ok (), st) else applyInputs tc.inputs st) with
  | (.error e, st1) => (.error e, st1)
  | (.ok _, st1) =>
      match forceRecalculate st1 with
      | (.error e, st2) => (.error e, st2)
      | (.ok _, st2) => readOutputs (tc.assertions.map Assertion.cell) st2

/-- `runTestWithoutProtection` (`src/unnamed/part_005`): the unprotected
single-test body used by the suite.  Its normal result carries the test's
name under the key `name` (not `testName`) and `error: null`. -/
def runTestWithoutProtection (tc : TestCase) : St → ERes TestResult := fun st =>
  match rtwpPhases tc st with
  | (.error e, st') => (.error e, st')
  | (.ok outputs, st') =>
      match evalLoop outputs tc.assertions with
      | .error e => (.error e, st')
      | .ok results =>
          (.ok
            { testName := none
              name := some (jsOrStr tc.name "Unnamed Test")
              passed := results.all (fun r => r.passed)
              assertionResults := results
              error := none }, st')

/-- The union of every test case's input and assertion addresses, in
insertion order (the suite's single `Set`). -/
def suiteAddrs (tcs : List TestCase) : List String :=
  tcs.foldl
    (fun acc tc => (tc.inputs.map Prod.fst ++ tc.assertions.map Assertion.cell).foldl addUnique acc)
    []

/-- The suite's snapshot step:
`try { snapshot = await snapshotWorksheetState(...) } catch (error)
{ console.error('Warning: Failed to create suite-level snapshot', ...) }` —
on failure the snapshot stays `null` and the suite CONTINUES. -/
def suiteSnapshotStep (tcs : List TestCase) : St → Option Snapshot × St := fun st =>
  match snapshotWorksheetState (suiteAddrs tcs) st with
  | (.ok snapshot, st') => (some snapshot, st')
  | (.error e, st') =>
      (none, (st'.emit (.logEv ("Warning: Failed to create suite-level snapshot: " ++ e))))

/-- The error-path result entry pushed by `runTestSuite` when test `i`
(0-based) throws: `{ testName: name || Test i+1, passed: false,
assertionResults: [], error: error.message }`. -/
def suiteErrEntry (tc : TestCase) (i : ℕ) (e : String) : TestResult :=
  { testName := some (jsOrStr tc.name ("Test " ++ toString (i + 1)))
    name := none
    passed := false
    assertionResults := []
    error := some e }

/-- The sequential test loop of `runTestSuite`: each test's outcome is
captured independently (`try { ... } catch { push error entry }`) and the
loop continues; `passedCount` counts the passing normal results. -/
def suiteLoop : List TestCase → ℕ → St → ERes (List TestResult × ℕ)
  | [], _, st => (.ok ([], 0), st)
  | tc :: rest, i, st =>
      match runTestWithoutProtection tc st with
      | (.ok r, st') =>
          (match suiteLoop rest (i + 1) st' with
           | (.ok (rs, pc), st'') => (.ok (r :: rs, (if r.passed then 1 else 0) + pc), st'')
           | (.error e, st'') => (.error e, st''))
      | (.error e, st') =>
          (match suiteLoop rest (i + 1) st' with
           | (.ok (rs, pc), st'') => (.ok (suiteErrEntry tc i e :: rs, pc), st'')
           | (.error e2, st'') => (.error e2, st''))

/-- The suite's finally block: restore only when a snapshot exists, catching
and logging a restore failure (`console.error("Failed to restore state:")`)
instead of re-throwing. -/
def suiteFinally (snapshot? : Option Snapshot) : St → ERes Unit :=
  match snapshot? with
  | some snapshot =>
      tryCatchR (restoreState5 snapshot)
        (fun e => logErrW ("Failed to restore state: " ++ e))
  | none => fun st => (.ok (), st)

/-- `runTestSuite` (`src/unnamed/part_005`): collect the union of protected
addresses, attempt ONE suite-level snapshot (logging and continuing on
failure), run all tests strictly sequentially inside a `try ... finally`
whose finaliser restores the snapshot (if any) once after the last test. -/
def runTestSuite (tcs : List TestCase) : St → ERes SuiteResult := fun st =>
  match suiteSnapshotStep tcs st with
  | (snapshot?, st1) =>
      tryFinallyR
        (fun st =>
          match suiteLoop tcs 0 st with
          | (.ok (rs, pc), st') =>
              (.ok { results := rs, passedCount := pc, totalCount := tcs.length }, st')
          | (.error e, st') => (.error e, st'))
        (suiteFinally snapshot?)
        st1

/-! ## Derived definitions used by the theorems -/

/-- `true` when `parseCellAddress` rejects the address. -/
def parseFails (x : String) : Bool :=
  match parseCellAddress x with
  | .ok _ => false
  | .error _ => true

/-- The address parses and, in document `d`, its sheet exists and the host
accepts its local address. -/
def addrOkB (d : Doc) (x : String) : Bool :=
  match parseCellAddress x with
  | .ok (w, c) => (d.sheets w).isSome && d.rangeOk w c
  | .error _ => false

/-- The address parses and concatenating the two parts with `"!"` gives the
address back (true for every real address, since the two parts contain no
`'!'`; stated as a decidable check so witnesses can evaluate it). -/
def rebuildOkB (x : String) : Bool :=
  match parseCellAddress x with
  | .ok (w, c) => w ++ "!" ++ c == x
  | .error _ => false

/-- The cell behind the address is in a host-consistent state: it exists,
its formula (if any) is non-empty, and its value agrees with the host's
calculation oracle for that formula — i.e. the workbook is calculated. -/
def cellGoodB (d : Doc) (x : String) : Bool :=
  match parseCellAddress x with
  | .ok (w, c) =>
      match d.cellAt w c with
      | some cs =>
          match cs.formula with
          | some f => !(f == "") && decide (cs.value = d.env w c f)
          | none => true
      | none => false
  | .error _ => false

/-- All conditions needed for a protected address to be captured and
faithfully restored. -/
def protOkB (d : Doc) (x : String) : Bool :=
  addrOkB d x && rebuildOkB x && cellGoodB d x

/-- Total version of the grouping loop (skipping unparsable addresses);
`groupAddrs` agrees with it when every address parses. -/
def groupAddrsT : List String → List (String × List String) → List (String × List String)
  | [], acc => acc
  | x :: xs, acc =>
      match parseCellAddress x with
      | .ok (w, c) => groupAddrsT xs (addGroup acc w c)
      | .error _ => groupAddrsT xs acc

/-- Total version of the pair grouping loop. -/
def groupPairsT {α : Type} : List (String × α) → List (String × List (String × α)) →
    List (String × List (String × α))
  | [], acc => acc
  | (x, v) :: xs, acc =>
      match parseCellAddress x with
      | .ok (w, c) => groupPairsT xs (addGroup acc w (c, v))
      | .error _ => groupPairsT xs acc

/-- The snapshot `snapshotWorksheetState` produces from document `d` when
every address is good: the grouped addresses, each mapped to the captured
state of its current cell. -/
def snapList (d : Doc) (addrs : List String) : Snapshot :=
  (flattenGroups (groupAddrsT addrs [])).map (fun p =>
    (p.1 ++ "!" ++ p.2, captureState ((d.cellAt p.1 p.2).getD { value := Value.undef, formula := none })))

/-- The cell state a restore write leaves behind for a captured entry:
the formula (with the oracle's value) when the captured formula is non-empty,
the raw value (and no formula) otherwise. -/
def restoredStateD (d : Doc) (w c : String) (cs : CellState) : CellState :=
  match cs.formula with
  | some f =>
      if f = "" then { value := cs.value, formula := none }
      else { value := d.env w c f, formula := some f }
  | none => { value := cs.value, formula := none }

/-- The document left by a successful restore pass over the given
`(ws, local, state)` triples. -/
def applySnapPairs (d : Doc) : List (String × String × CellState) → Doc
  | [] => d
  | p :: ps => applySnapPairs (d.setCell p.1 p.2.1 (restoredStateD d p.1 p.2.1 p.2.2)) ps

/-- Two documents with the same sheet population, host range acceptance and
calculation oracle (the engine never creates or deletes sheets and never
changes host behaviour; only cell contents change). -/
def SameShape (d d' : Doc) : Prop :=
  (∀ w, (d'.sheets w).isSome = (d.sheets w).isSome) ∧
    d'.rangeOk = d.rangeOk ∧ d'.env = d.env

/-- State after running a list of test cases through
`runTestWithoutProtection`, discarding outcomes (the suite loop's state
thread). -/
def afterTests : List TestCase → St → St
  | [], st => st
  | tc :: rest, st => afterTests rest (runTestWithoutProtection tc st).2

/-- The result entry the suite loop records for one test started in state
`st` at (0-based) position `i`. -/
def loopEntry (tc : TestCase) (i : ℕ) (st : St) : TestResult :=
  match runTestWithoutProtection tc st with
  | (.ok r, _) => r
  | (.error e, _) => suiteErrEntry tc i e

/-! ## Arithmetic bridge lemmas -/

/-- `ratSub` is ordinary rational subtraction. -/
theorem ratSub_eq_sub (a b : ℚ) : ratSub a b = a - b := (Rat.sub_def' a b).symm

/-- `ratAbs` is the ordinary absolute value. -/
theorem ratAbs_eq_abs (a : ℚ) : ratAbs a = |a| := by
  unfold ratAbs
  by_cases h : a.num < 0
  · rw [if_pos h, abs_of_neg (Rat.num_neg.mp h)]
    rfl
  · rw [if_neg h, abs_of_nonneg (Rat.num_nonneg.mp (le_of_not_lt h))]

/-- `ratLeB` decides the ordinary order on `ℚ`. -/
theorem ratLeB_eq_le (a b : ℚ) : ratLeB a b = decide (a ≤ b) := by
  unfold ratLeB
  rw [decide_eq_decide]
  conv_rhs => rw [← Rat.num_divInt_den a, ← Rat.num_divInt_den b]
  rw [Rat.divInt_le_divInt (Int.natCast_pos.mpr a.pos) (Int.natCast_pos.mpr b.pos)]

/-! ## Shape preservation -/

theorem sameShape_refl (d : Doc) : SameShape d d := ⟨fun _ => rfl, rfl, rfl⟩

theorem sameShape_trans {a b c : Doc} (h1 : SameShape a b) (h2 : SameShape b c) :
    SameShape a c :=
  ⟨fun w => (h2.1 w).trans (h1.1 w), h2.2.1.trans h1.2.1, h2.2.2.trans h1.2.2⟩

theorem setCell_shape (d : Doc) (w a : String) (cs : CellState) :
    SameShape d (d.setCell w a cs) := by
  refine ⟨fun w' => ?_, rfl, rfl⟩
  unfold Doc.setCell
  by_cases h : w' = w
  · simp [h]
  · simp [h]

theorem recalcAll_shape (d : Doc) : SameShape d d.recalcAll := by
  refine ⟨fun w => ?_, rfl, rfl⟩
  unfold Doc.recalcAll
  simp

/-- A document with the same shape reads the same address checks. -/
theorem addrOkB_of_sameShape {d d' : Doc} (h : SameShape d d') (x : String) :
    addrOkB d' x = addrOkB d x := by
  unfold addrOkB
  cases hp : parseCellAddress x with
  | ok p =>
      cases p with
      | mk w c => simp only [h.1 w, h.2.1]
  | error e => rfl

/-! ## Primitive state lemmas -/

theorem getItemW_st (ws : String) (st : St) : (getItemW ws st).2 = st.emit (.getItem ws) := by
  unfold getItemW
  split <;> rfl

theorem getItemW_ok {ws : String} {st : St} (h : (st.doc.sheets ws).isSome = true) :
    getItemW ws st = (.ok (), st.emit (.getItem ws)) := by
  unfold getItemW
  split
  · rfl
  · rename_i heq
    rw [heq] at h
    cases h

theorem getRangeW_st (ws a : String) (st : St) : (getRangeW ws a st).2 = st := by
  unfold getRangeW
  split <;> rfl

theorem getRangeW_ok {ws a : String} {st : St} (h : st.doc.rangeOk ws a = true) :
    getRangeW ws a st = (.ok (), st) := by
  unfold getRangeW
  rw [h]
  rfl

theorem rangeLoop_st (ws : String) (cells : List String) (st : St) :
    (rangeLoop ws cells st).2 = st := by
  induction cells generalizing st with
  | nil => rfl
  | cons c cs ih =>
      unfold rangeLoop
      rcases hg : getRangeW ws c st with ⟨r, st'⟩
      have hst : st' = st := by
        have := getRangeW_st ws c st
        rw [hg] at this
        exact this
      cases r with
      | ok _ => simp only [hst]; exact ih st
      | error e => simp [hst]

theorem rangeLoop_ok {ws : String} {cells : List String} {st : St}
    (h : ∀ c ∈ cells, st.doc.rangeOk ws c = true) :
    rangeLoop ws cells st = (.ok (), st) := by
  induction cells with
  | nil => rfl
  | cons c cs ih =>
      unfold rangeLoop
      rw [getRangeW_ok (h c (by simp))]
      exact ih (fun c' hc' => h c' (by simp [hc']))

/-! ## Grouping lemmas -/

/-- The only parse error is the malformed-address message. -/
theorem parse_err_msg {x e : String} (h : parseCellAddress x = .error e) :
    e = invalidAddrMsg x := by
  unfold parseCellAddress at h
  split at h
  · cases h
  · cases h
    rfl

theorem groupAddrs_eq_total {addrs : List String} {acc : List (String × List String)}
    (h : ∀ x ∈ addrs, parseFails x = false) :
    groupAddrs addrs acc = .ok (groupAddrsT addrs acc) := by
  induction addrs generalizing acc with
  | nil => rfl
  | cons x xs ih =>
      have hx := h x (by simp)
      unfold groupAddrs groupAddrsT
      cases hp : parseCellAddress x with
      | ok p =>
          cases p with
          | mk w c => exact ih (fun y hy => h y (by simp [hy]))
      | error e =>
          unfold parseFails at hx
          rw [hp] at hx
          cases hx

theorem groupAddrs_err {addrs : List String} {acc : List (String × List String)}
    (h : ∃ x ∈ addrs, parseFails x = true) :
    ∃ x ∈ addrs, groupAddrs addrs acc = .error (invalidAddrMsg x) := by
  induction addrs generalizing acc with
  | nil => rcases h with ⟨x, hx, _⟩; cases hx
  | cons y ys ih =>
      unfold groupAddrs
      cases hp : parseCellAddress y with
      | ok p =>
          cases p with
          | mk w c =>
              have : ∃ x ∈ ys, parseFails x = true := by
                rcases h with ⟨x, hx, hf⟩
                rcases List.mem_cons.mp hx with rfl | hx'
                · unfold parseFails at hf; rw [hp] at hf; cases hf
                · exact ⟨x, hx', hf⟩
              rcases ih this with ⟨x, hx, heq⟩
              exact ⟨x, by simp [hx], heq⟩
      | error e =>
          exact ⟨y, by simp, by rw [parse_err_msg hp]⟩

theorem groupPairs_eq_total {α : Type} {prs : List (String × α)}
    {acc : List (String × List (String × α))}
    (h : ∀ p ∈ prs, parseFails p.1 = false) :
    groupPairs prs acc = .ok (groupPairsT prs acc) := by
  induction prs generalizing acc with
  | nil => rfl
  | cons p ps ih =>
      rcases p with ⟨x, v⟩
      have hx := h (x, v) (by simp)
      unfold groupPairs groupPairsT
      cases hp : parseCellAddress x with
      | ok q =>
          cases q with
          | mk w c => exact ih (fun y hy => h y (by simp [hy]))
      | error e =>
          unfold parseFails at hx
          rw [hp] at hx
          cases hx

theorem groupPairs_err {α : Type} {prs : List (String × α)}
    {acc : List (String × List (String × α))}
    (h : ∃ p ∈ prs, parseFails p.1 = true) :
    ∃ p ∈ prs, groupPairs prs acc = .error (invalidAddrMsg p.1) := by
  induction prs generalizing acc with
  | nil => rcases h with ⟨x, hx, _⟩; cases hx
  | cons y ys ih =>
      rcases y with ⟨x, v⟩
      unfold groupPairs
      cases hp : parseCellAddress x with
      | ok q =>
          cases q with
          | mk w c =>
              have : ∃ p ∈ ys, parseFails p.1 = true := by
                rcases h with ⟨p, hpmem, hf⟩
                rcases List.mem_cons.mp hpmem with rfl | hp'
                · unfold parseFails at hf; rw [hp] at hf; cases hf
                · exact ⟨p, hp', hf⟩
              rcases ih this with ⟨p, hpm, heq⟩
              exact ⟨p, by simp [hpm], heq⟩
      | error e =>
          exact ⟨(x, v), by simp, by rw [parse_err_msg hp]⟩

theorem flattenGroups_cons {α : Type} (g : String × List α) (gs : List (String × List α)) :
    flattenGroups (g :: gs) = g.2.map (fun c => (g.1, c)) ++ flattenGroups gs := by
  simp [flattenGroups]

theorem mem_flattenGroups_addGroup {α : Type} {gs : List (String × List α)} {k : String}
    {v : α} {p : String × α} :
    p ∈ flattenGroups (addGroup gs k v) ↔ p ∈ flattenGroups gs ∨ p = (k, v) := by
  induction gs with
  | nil => simp [addGroup, flattenGroups]
  | cons g rest ih =>
      rcases g with ⟨k', vs⟩
      unfold addGroup
      by_cases hk : k' = k
      · subst hk
        rw [if_pos rfl]
        simp only [flattenGroups_cons, List.map_append, List.mem_append,
          List.map_cons, List.map_nil, List.mem_singleton]
        tauto
      · rw [if_neg hk]
        simp only [flattenGroups_cons, List.mem_append, ih]
        tauto

theorem mem_flattenGroups_groupAddrsT {addrs : List String}
    {acc : List (String × List String)} {p : String × String} :
    p ∈ flattenGroups (groupAddrsT addrs acc) ↔
      p ∈ flattenGroups acc ∨ ∃ x ∈ addrs, parseCellAddress x = .ok p := by
  induction addrs generalizing acc with
  | nil => simp [groupAddrsT]
  | cons x xs ih =>
      unfold groupAddrsT
      cases hp : parseCellAddress x with
      | ok q =>
          cases q with
          | mk w c =>
              rw [ih]
              rw [mem_flattenGroups_addGroup]
              constructor
              · rintro ((hm | rfl) | ⟨y, hy, hpy⟩)
                · exact Or.inl hm
                · exact Or.inr ⟨x, by simp, hp⟩
                · exact Or.inr ⟨y, by simp [hy], hpy⟩
              · rintro (hm | ⟨y, hy, hpy⟩)
                · exact Or.inl (Or.inl hm)
                · rcases List.mem_cons.mp hy with rfl | hy'
                  · rw [hp] at hpy
                    cases hpy
                    exact Or.inl (Or.inr rfl)
                  · exact Or.inr ⟨y, hy', hpy⟩
      | error e =>
          rw [ih]
          constructor
          · rintro (hm | ⟨y, hy, hpy⟩)
            · exact Or.inl hm
            · exact Or.inr ⟨y, by simp [hy], hpy⟩
          · rintro (hm | ⟨y, hy, hpy⟩)
            · exact Or.inl hm
            · rcases List.mem_cons.mp hy with rfl | hy'
              · rw [hp] at hpy; cases hpy
              · exact Or.inr ⟨y, hy', hpy⟩

theorem mem_flattenGroups_groupPairsT {α : Type} {prs : List (String × α)}
    {acc : List (String × List (String × α))} {p : String × String × α} :
    p ∈ flattenGroups (groupPairsT prs acc) ↔
      p ∈ flattenGroups acc ∨
        ∃ x, (x, p.2.2) ∈ prs ∧ parseCellAddress x = .ok (p.1, p.2.1) := by
  induction prs generalizing acc with
  | nil => simp [groupPairsT]
  | cons y ys ih =>
      rcases y with ⟨x, v⟩
      unfold groupPairsT
      cases hp : parseCellAddress x with
      | ok q =>
          cases q with
          | mk w c =>
              rw [ih, mem_flattenGroups_addGroup]
              constructor
              · rintro ((hm | hpv) | ⟨y, hy, hpy⟩)
                · exact Or.inl hm
                · rcases p with ⟨pw, pc, pv⟩
                  cases hpv
                  exact Or.inr ⟨x, by simp, hp⟩
                · exact Or.inr ⟨y, by simp [hy], hpy⟩
              · rintro (hm | ⟨y, hy, hpy⟩)
                · exact Or.inl (Or.inl hm)
                · rcases List.mem_cons.mp hy with heq | hy'
                  · rcases p with ⟨pw, pc, pv⟩
                    cases heq
                    rw [hp] at hpy
                    cases hpy
                    exact Or.inl (Or.inr rfl)
                  · exact Or.inr ⟨y, hy', hpy⟩
      | error e =>
          rw [ih]
          constructor
          · rintro (hm | ⟨y, hy, hpy⟩)
            · exact Or.inl hm
            · exact Or.inr ⟨y, by simp [hy], hpy⟩
          · rintro (hm | ⟨y, hy, hpy⟩)
            · exact Or.inl hm
            · rcases List.mem_cons.mp hy with heq | hy'
              · rcases p with ⟨pw, pc, pv⟩
                cases heq
                rw [hp] at hpy
                cases hpy
              · exact Or.inr ⟨y, hy', hpy⟩

theorem addGroup_sndNe {α : Type} {gs : List (String × List α)} {k : String} {v : α}
    (h : ∀ g ∈ gs, g.2 ≠ []) : ∀ g ∈ addGroup gs k v, g.2 ≠ [] := by
  induction gs with
  | nil =>
      intro g hg
      simp only [addGroup, List.mem_singleton] at hg
      subst hg
      simp
  | cons g0 rest ih =>
      rcases g0 with ⟨k', vs⟩
      intro g hg
      unfold addGroup at hg
      by_cases hk : k' = k
      · rw [if_pos hk] at hg
        rcases List.mem_cons.mp hg with heq | hg'
        · subst heq; simp
        · exact h g (by simp [hg'])
      · rw [if_neg hk] at hg
        rcases List.mem_cons.mp hg with heq | hg'
        · subst heq; exact h (k', vs) (by simp)
        · exact ih (fun g' hg'' => h g' (by simp [hg''])) g hg'

theorem groupAddrsT_sndNe {addrs : List String} {acc : List (String × List String)}
    (h : ∀ g ∈ acc, g.2 ≠ []) : ∀ g ∈ groupAddrsT addrs acc, g.2 ≠ [] := by
  induction addrs generalizing acc with
  | nil => exact h
  | cons x xs ih =>
      unfold groupAddrsT
      cases hp : parseCellAddress x with
      | ok p =>
          cases p with
          | mk w c => exact ih (addGroup_sndNe h)
      | error e => exact ih h

theorem groupPairsT_sndNe {α : Type} {prs : List (String × α)}
    {acc : List (String × List (String × α))}
    (h : ∀ g ∈ acc, g.2 ≠ []) : ∀ g ∈ groupPairsT prs acc, g.2 ≠ [] := by
  induction prs generalizing acc with
  | nil => exact h
  | cons y ys ih =>
      rcases y with ⟨x, v⟩
      unfold groupPairsT
      cases hp : parseCellAddress x with
      | ok p =>
          cases p with
          | mk w c => exact ih (addGroup_sndNe h)
      | error e => exact ih h

theorem mem_flattenGroups_of_mem {α : Type} {gs : List (String × List α)}
    {g : String × List α} (hg : g ∈ gs) {c : α} (hc : c ∈ g.2) :
    (g.1, c) ∈ flattenGroups gs := by
  unfold flattenGroups
  refine List.mem_flatMap.mpr ⟨g, hg, ?_⟩
  exact List.mem_map.mpr ⟨c, hc, rfl⟩

/-! ## Snapshot characterization -/

theorem snapCheckGroup_st (ws : String) (cells : List String) (st : St) :
    (snapCheckGroup ws cells st).2 = st.emit (.getItem ws) := by
  unfold snapCheckGroup tryCatchR seqR
  rcases hg : getItemW ws st with ⟨r, st'⟩
  have hst' : st' = st.emit (.getItem ws) := by
    have h0 := getItemW_st ws st
    rw [hg] at h0
    exact h0
  subst hst'
  cases r with
  | ok a =>
      rcases hr : rangeLoop ws cells (st.emit (.getItem ws)) with ⟨r2, st2⟩
      have hst2 : st2 = st.emit (.getItem ws) := by
        have h0 := rangeLoop_st ws cells (st.emit (.getItem ws))
        rw [hr] at h0
        exact h0
      subst hst2
      cases r2 <;> simp [hr]
  | error e => simp

theorem snapCheckGroup_ok {ws : String} {cells : List String} {st : St}
    (hsheet : (st.doc.sheets ws).isSome = true)
    (hr : ∀ c ∈ cells, st.doc.rangeOk ws c = true) :
    snapCheckGroup ws cells st = (.ok (), st.emit (.getItem ws)) := by
  unfold snapCheckGroup tryCatchR seqR
  rw [getItemW_ok hsheet]
  have hr' : rangeLoop ws cells (st.emit (.getItem ws)) = (.ok (), st.emit (.getItem ws)) :=
    rangeLoop_ok hr
  simp [hr']

theorem snapCheck_st (gs : List (String × List String)) (st : St) :
    ∃ ds, (snapCheck gs st).2 = ⟨st.doc, st.trace ++ ds⟩ ∧
      ∀ ev ∈ ds, ∃ w, ev = HEvent.getItem w := by
  induction gs generalizing st with
  | nil => exact ⟨[], by simp [snapCheck], by simp⟩
  | cons g rest ih =>
      rcases g with ⟨ws, cells⟩
      unfold snapCheck
      rcases hg : snapCheckGroup ws cells st with ⟨r, st'⟩
      have hst' : st' = st.emit (.getItem ws) := by
        have h0 := snapCheckGroup_st ws cells st
        rw [hg] at h0
        exact h0
      subst hst'
      cases r with
      | ok a =>
          rcases ih (st.emit (.getItem ws)) with ⟨ds, hds, hall⟩
          refine ⟨.getItem ws :: ds, ?_, ?_⟩
          · simp only [hg]
            rw [hds]
            simp [St.emit]
          · intro ev hev
            rcases List.mem_cons.mp hev with rfl | hev'
            · exact ⟨ws, rfl⟩
            · exact hall ev hev'
      | error e =>
          refine ⟨[.getItem ws], ?_, ?_⟩
          · simp only [hg]
            simp [St.emit]
          · intro ev hev
            simp only [List.mem_singleton] at hev
            subst hev
            exact ⟨ws, rfl⟩

theorem snapCheck_ok {gs : List (String × List String)} {st : St}
    (h : ∀ g ∈ gs, (st.doc.sheets g.1).isSome = true ∧ ∀ c ∈ g.2, st.doc.rangeOk g.1 c = true) :
    snapCheck gs st = (.ok (), ⟨st.doc, st.trace ++ gs.map (fun g => .getItem g.1)⟩) := by
  induction gs generalizing st with
  | nil =>
      simp [snapCheck]
  | cons g rest ih =>
      rcases g with ⟨ws, cells⟩
      unfold snapCheck
      rw [snapCheckGroup_ok (h (ws, cells) (by simp)).1 (h (ws, cells) (by simp)).2]
      show snapCheck rest (st.emit (.getItem ws)) = _
      rw [@ih (st.emit (.getItem ws)) (fun g' hg' => h g' (by simp [hg']))]
      simp [St.emit]

theorem snapshot_doc (addrs : List String) (st : St) :
    ((snapshotWorksheetState addrs st).2).doc = st.doc := by
  rcases hg : groupAddrs addrs [] with e | groups
  · unfold snapshotWorksheetState
    simp only [hg]
  · rcases hc : snapCheck groups st with ⟨r, st'⟩
    have hdoc : st'.doc = st.doc := by
      rcases snapCheck_st groups st with ⟨ds, hds, _⟩
      rw [hc] at hds
      have h2 : st' = ({ doc := st.doc, trace := st.trace ++ ds } : St) := hds
      rw [h2]
    unfold snapshotWorksheetState
    simp only [hg, hc]
    cases r with
    | error e => exact hdoc
    | ok a => simpa [St.emit] using hdoc

theorem snapshot_err_trace {addrs : List String} {st : St} {e : String}
    (h : (snapshotWorksheetState addrs st).1 = .error e) :
    ∃ ds, (snapshotWorksheetState addrs st).2 = ⟨st.doc, st.trace ++ ds⟩ ∧
      ∀ ev ∈ ds, ∃ w, ev = HEvent.getItem w := by
  rcases hg : groupAddrs addrs [] with e2 | groups
  · unfold snapshotWorksheetState
    simp only [hg]
    exact ⟨[], by simp, by simp⟩
  · rcases hc : snapCheck groups st with ⟨r, st'⟩
    rcases snapCheck_st groups st with ⟨ds, hds, hall⟩
    rw [hc] at hds
    have h2 : st' = ({ doc := st.doc, trace := st.trace ++ ds } : St) := hds
    unfold snapshotWorksheetState at h ⊢
    simp only [hg, hc] at h ⊢
    cases r with
    | error e2 => exact ⟨ds, by rw [h2], hall⟩
    | ok a => simp at h

theorem addrOkB_parse {d : Doc} {x : String} (h : addrOkB d x = true) :
    ∃ w c, parseCellAddress x = .ok (w, c) ∧ (d.sheets w).isSome = true ∧
      d.rangeOk w c = true := by
  unfold addrOkB at h
  cases hp : parseCellAddress x with
  | ok p =>
      rcases p with ⟨w, c⟩
      rw [hp] at h
      simp only [Bool.and_eq_true] at h
      exact ⟨w, c, rfl, h.1, h.2⟩
  | error e =>
      rw [hp] at h
      cases h

theorem parseFails_false_of_addrOk {d : Doc} {x : String} (h : addrOkB d x = true) :
    parseFails x = false := by
  rcases addrOkB_parse h with ⟨w, c, hp, _, _⟩
  unfold parseFails
  rw [hp]

theorem snapshot_ok {addrs : List String} {st : St}
    (h : ∀ x ∈ addrs, addrOkB st.doc x = true) :
    snapshotWorksheetState addrs st =
      (.ok (snapList st.doc addrs),
       ⟨st.doc, st.trace ++ (groupAddrsT addrs []).map (fun g => .getItem g.1) ++ [.syncEv]⟩) := by
  unfold snapshotWorksheetState
  rw [groupAddrs_eq_total (fun x hx => parseFails_false_of_addrOk (h x hx))]
  have hgroups : ∀ g ∈ groupAddrsT addrs [], (st.doc.sheets g.1).isSome = true ∧
      ∀ c ∈ g.2, st.doc.rangeOk g.1 c = true := by
    intro g hg
    have hne : g.2 ≠ [] := groupAddrsT_sndNe (by simp) g hg
    have hcell : ∀ c ∈ g.2, (st.doc.sheets g.1).isSome = true ∧ st.doc.rangeOk g.1 c = true := by
      intro c hc
      have hmem : (g.1, c) ∈ flattenGroups (groupAddrsT addrs []) :=
        mem_flattenGroups_of_mem hg hc
      rcases (mem_flattenGroups_groupAddrsT).mp hmem with hacc | ⟨x, hx, hpx⟩
      · simp [flattenGroups] at hacc
      · rcases addrOkB_parse (h x hx) with ⟨w', c', hp', hs', hr'⟩
        rw [hpx] at hp'
        cases hp'
        exact ⟨hs', hr'⟩
    rcases List.exists_mem_of_ne_nil g.2 hne with ⟨c0, hc0⟩
    exact ⟨(hcell c0 hc0).1, fun c hc => (hcell c hc).2⟩
  simp only [snapCheck_ok hgroups]
  simp [snapList, St.emit]

/-! ## Apply / recalculate / read lemmas -/

theorem writeValueW_run (ws a : String) (v : Value) (st : St) :
    writeValueW ws a v st =
      (.ok (), { st with doc := st.doc.setCell ws a { value := v, formula := none } }) := rfl

theorem applyCellLoop_shape (ws : String) (cells : List (String × Value)) (st : St) :
    SameShape st.doc ((applyCellLoop ws cells st).2).doc := by
  induction cells generalizing st with
  | nil => exact sameShape_refl _
  | cons cv cs ih =>
      rcases cv with ⟨c, v⟩
      unfold applyCellLoop
      rcases hg : getRangeW ws c st with ⟨r, st'⟩
      have hst' : st' = st := by
        have h0 := getRangeW_st ws c st
        rw [hg] at h0
        exact h0
      subst hst'
      cases r with
      | ok a =>
          simp only [writeValueW_run]
          exact sameShape_trans (setCell_shape _ _ _ _) (ih _)
      | error e => exact sameShape_refl _

theorem applyCellLoop_ok {ws : String} {cells : List (String × Value)} {st : St}
    (h : ∀ cv ∈ cells, st.doc.rangeOk ws cv.1 = true) :
    ∃ st', applyCellLoop ws cells st = (.ok (), st') := by
  induction cells generalizing st with
  | nil => exact ⟨st, rfl⟩
  | cons cv cs ih =>
      rcases cv with ⟨c, v⟩
      unfold applyCellLoop
      rw [getRangeW_ok (h (c, v) (by simp))]
      simp only [writeValueW_run]
      refine ih ?_
      intro cv' hcv'
      have : (st.doc.setCell ws c { value := v, formula := none }).rangeOk = st.doc.rangeOk :=
        rfl
      rw [show ({ st with doc := st.doc.setCell ws c { value := v, formula := none } } : St).doc
        = st.doc.setCell ws c { value := v, formula := none } from rfl, this]
      exact h cv' (by simp [hcv'])

theorem applyGroup_shape (ws : String) (cells : List (String × Value)) (st : St) :
    SameShape st.doc ((applyGroup ws cells st).2).doc := by
  unfold applyGroup tryCatchR seqR
  rcases hg : getItemW ws st with ⟨r, st'⟩
  have hst' : st' = st.emit (.getItem ws) := by
    have h0 := getItemW_st ws st
    rw [hg] at h0
    exact h0
  subst hst'
  cases r with
  | ok a =>
      rcases hc : applyCellLoop ws cells (st.emit (.getItem ws)) with ⟨r2, st2⟩
      have hsh := applyCellLoop_shape ws cells (st.emit (.getItem ws))
      rw [hc] at hsh
      cases r2 with
      | ok a2 =>
          simp only [hc]
          exact hsh
      | error e =>
          simp only [hc]
          exact hsh
  | error e => exact sameShape_refl _

theorem applyGroup_ok {ws : String} {cells : List (String × Value)} {st : St}
    (hsheet : (st.doc.sheets ws).isSome = true)
    (hr : ∀ cv ∈ cells, st.doc.rangeOk ws cv.1 = true) :
    ∃ st', applyGroup ws cells st = (.ok (), st') := by
  unfold applyGroup tryCatchR seqR
  rw [getItemW_ok hsheet]
  rcases @applyCellLoop_ok _ _ (st.emit (.getItem ws)) hr with ⟨st', hst'⟩
  simp only [hst']
  exact ⟨st', rfl⟩

theorem applyLoop_shape (gs : List (String × List (String × Value))) (st : St) :
    SameShape st.doc ((applyLoop gs st).2).doc := by
  induction gs generalizing st with
  | nil => exact sameShape_refl _
  | cons g rest ih =>
      rcases g with ⟨ws, cells⟩
      unfold applyLoop
      rcases hg : applyGroup ws cells st with ⟨r, st'⟩
      have hsh := applyGroup_shape ws cells st
      rw [hg] at hsh
      cases r with
      | ok a => exact sameShape_trans hsh (ih _)
      | error e => simpa using hsh

theorem applyLoop_ok {gs : List (String × List (String × Value))} {st : St}
    (h : ∀ g ∈ gs, (st.doc.sheets g.1).isSome = true ∧
      ∀ cv ∈ g.2, st.doc.rangeOk g.1 cv.1 = true) :
    ∃ st', applyLoop gs st = (.ok (), st') := by
  induction gs generalizing st with
  | nil => exact ⟨st, rfl⟩
  | cons g rest ih =>
      rcases g with ⟨ws, cells⟩
      unfold applyLoop
      rcases applyGroup_ok (h (ws, cells) (by simp)).1 (h (ws, cells) (by simp)).2 with ⟨st', hst'⟩
      rw [hst']
      have hsh := applyGroup_shape ws cells st
      rw [hst'] at hsh
      refine ih ?_
      intro g' hg'
      have h' := h g' (by simp [hg'])
      refine ⟨?_, ?_⟩
      · rw [hsh.1 g'.1]
        exact h'.1
      · intro cv hcv
        rw [hsh.2.1]
        exact h'.2 cv hcv

theorem applyInputs_shape (inputs : List (String × Value)) (st : St) :
    SameShape st.doc ((applyInputs inputs st).2).doc := by
  rcases hg : groupPairs inputs [] with e | gs
  · unfold applyInputs
    simp only [hg]
    exact sameShape_refl _
  · rcases hl : applyLoop gs st with ⟨r, st'⟩
    have hsh := applyLoop_shape gs st
    rw [hl] at hsh
    unfold applyInputs
    simp only [hg, hl]
    cases r with
    | error e => simpa using hsh
    | ok a => simpa [St.emit] using hsh

theorem applyInputs_ok {inputs : List (String × Value)} {st : St}
    (h : ∀ p ∈ inputs, addrOkB st.doc p.1 = true) :
    ∃ st', applyInputs inputs st = (.ok (), st') ∧ SameShape st.doc st'.doc := by
  have hparse : ∀ p ∈ inputs, parseFails p.1 = false :=
    fun p hp => parseFails_false_of_addrOk (h p hp)
  have hgroups : ∀ g ∈ groupPairsT inputs [], (st.doc.sheets g.1).isSome = true ∧
      ∀ cv ∈ g.2, st.doc.rangeOk g.1 cv.1 = true := by
    intro g hg
    have hne : g.2 ≠ [] := groupPairsT_sndNe (by simp) g hg
    have hcell : ∀ cv ∈ g.2, (st.doc.sheets g.1).isSome = true ∧
        st.doc.rangeOk g.1 cv.1 = true := by
      intro cv hcv
      have hmem : (g.1, cv) ∈ flattenGroups (groupPairsT inputs []) :=
        mem_flattenGroups_of_mem hg hcv
      rcases (mem_flattenGroups_groupPairsT).mp hmem with hacc | ⟨x, hx, hpx⟩
      · simp [flattenGroups] at hacc
      · rcases addrOkB_parse (h (x, cv.2) hx) with ⟨w', c', hp', hs', hr'⟩
        rw [hpx] at hp'
        cases hp'
        exact ⟨hs', hr'⟩
    rcases List.exists_mem_of_ne_nil g.2 hne with ⟨c0, hc0⟩
    exact ⟨(hcell c0 hc0).1, fun cv hcv => (hcell cv hcv).2⟩
  rcases applyLoop_ok hgroups with ⟨st', hst'⟩
  have hsh := applyLoop_shape (groupPairsT inputs []) st
  rw [hst'] at hsh
  unfold applyInputs
  simp only [groupPairs_eq_total hparse, hst']
  exact ⟨st'.emit .syncEv, rfl, by simpa [St.emit] using hsh⟩

theorem forceRecalculate_run (st : St) :
    forceRecalculate st =
      (.ok (), ⟨(st.emit .recalcEv).doc.recalcAll, (st.emit .recalcEv).trace ++ [.syncEv]⟩) := rfl

theorem forceRecalculate_shape (st : St) :
    SameShape st.doc ((forceRecalculate st).2).doc := by
  rw [forceRecalculate_run]
  exact recalcAll_shape _

theorem readCheck_doc (cells : List String) (acc : List (String × String × String)) (st : St) :
    ((readCheck cells acc st).2).doc = st.doc := by
  induction cells generalizing acc st with
  | nil => rfl
  | cons x xs ih =>
      unfold readCheck tryCatchR
      cases hp : parseCellAddress x with
      | error e => simp only [hp]
      | ok p =>
          rcases p with ⟨w, c⟩
          simp only [hp]
          rcases hg : getItemW w st with ⟨r, st'⟩
          have hst' : st' = st.emit (.getItem w) := by
            have h0 := getItemW_st w st
            rw [hg] at h0
            exact h0
          subst hst'
          cases r with
          | error e =>
              simp only [hg]
              rfl
          | ok a =>
              simp only [hg]
              rcases hr : getRangeW w c (st.emit (.getItem w)) with ⟨r2, st2⟩
              have hst2 : st2 = st.emit (.getItem w) := by
                have h0 := getRangeW_st w c (st.emit (.getItem w))
                rw [hr] at h0
                exact h0
              subst hst2
              cases r2 with
              | error e =>
                  simp only [hr]
                  rfl
              | ok a2 =>
                  simp only [hr]
                  exact ih _ _

theorem readCheck_ok {cells : List String} {acc : List (String × String × String)} {st : St}
    (h : ∀ x ∈ cells, addrOkB st.doc x = true) :
    ∃ triples st', readCheck cells acc st = (.ok triples, st') ∧ st'.doc = st.doc := by
  induction cells generalizing acc st with
  | nil => exact ⟨acc, st, rfl, rfl⟩
  | cons x xs ih =>
      rcases addrOkB_parse (h x (by simp)) with ⟨w, c, hp, hs, hr⟩
      unfold readCheck tryCatchR
      simp only [hp, getItemW_ok hs,
        getRangeW_ok (show ((st.emit (.getItem w)).doc.rangeOk w c = true) from hr)]
      rcases @ih (acc ++ [(x, w, c)]) (st.emit (.getItem w))
        (fun y hy => h y (by simp [hy])) with ⟨triples, st', heq, hdoc⟩
      exact ⟨triples, st', heq, hdoc⟩

theorem readOutputs_doc (cells : List String) (st : St) :
    ((readOutputs cells st).2).doc = st.doc := by
  rcases hc : readCheck cells [] st with ⟨r, st'⟩
  have hdoc := readCheck_doc cells [] st
  rw [hc] at hdoc
  unfold readOutputs
  simp only [hc]
  cases r with
  | error e => exact hdoc
  | ok triples => simpa [St.emit] using hdoc

theorem readOutputs_ok {cells : List String} {st : St}
    (h : ∀ x ∈ cells, addrOkB st.doc x = true) :
    ∃ outs st', readOutputs cells st = (.ok outs, st') ∧ st'.doc = st.doc := by
  rcases @readCheck_ok _ [] _ h with ⟨triples, st', heq, hdoc⟩
  unfold readOutputs
  simp only [heq]
  exact ⟨_, st'.emit .syncEv, rfl, by simpa [St.emit] using hdoc⟩

/-! ## Restore lemmas -/

theorem applySnapPairs_append (d : Doc) (ps qs : List (String × String × CellState)) :
    applySnapPairs d (ps ++ qs) = applySnapPairs (applySnapPairs d ps) qs := by
  induction ps generalizing d with
  | nil => rfl
  | cons p ps' ih =>
      simp only [List.cons_append, applySnapPairs]
      exact ih _

theorem applySnapPairs_shape (d : Doc) (ps : List (String × String × CellState)) :
    SameShape d (applySnapPairs d ps) := by
  induction ps generalizing d with
  | nil => exact sameShape_refl _
  | cons p ps' ih =>
      unfold applySnapPairs
      exact sameShape_trans (setCell_shape _ _ _ _) (ih _)

theorem restoreCellWrite_ok {ws a : String} {state : CellState} {st : St}
    (hr : st.doc.rangeOk ws a = true) :
    restoreCellWrite ws a state st =
      (.ok (), { st with doc := st.doc.setCell ws a (restoredStateD st.doc ws a state) }) := by
  unfold restoreCellWrite seqR
  rw [getRangeW_ok hr]
  cases hf : state.formula with
  | none => simp only [hf, restoredStateD, writeValueW]
  | some f =>
      by_cases hemp : f = ""
      · subst hemp
        simp [hf, restoredStateD, writeValueW]
      · simp only [hf, restoredStateD, if_neg hemp, writeFormulaW]

theorem restoreWsCells5_ok {ws : String} {cells : List (String × CellState)} {st : St}
    (h : ∀ p ∈ cells, st.doc.rangeOk ws p.1 = true) :
    restoreWsCells5 ws cells st =
      (.ok (), { st with doc := applySnapPairs st.doc (cells.map (fun p => (ws, p))) }) := by
  induction cells generalizing st with
  | nil => rfl
  | cons p rest ih =>
      rcases p with ⟨a, state⟩
      unfold restoreWsCells5 tryCatchR
      rw [restoreCellWrite_ok (h (a, state) (by simp))]
      show restoreWsCells5 ws rest
        { st with doc := st.doc.setCell ws a (restoredStateD st.doc ws a state) } = _
      rw [@ih { st with doc := st.doc.setCell ws a (restoredStateD st.doc ws a state) }
        (fun p' hp' => h p' (by simp [hp']))]
      rfl

theorem restoreWsCells_ok {ws : String} {cells : List (String × CellState)} {st : St}
    (h : ∀ p ∈ cells, st.doc.rangeOk ws p.1 = true) :
    restoreWsCells ws cells st =
      (.ok (), { st with doc := applySnapPairs st.doc (cells.map (fun p => (ws, p))) }) := by
  induction cells generalizing st with
  | nil => rfl
  | cons p rest ih =>
      rcases p with ⟨a, state⟩
      unfold restoreWsCells
      rw [restoreCellWrite_ok (h (a, state) (by simp))]
      show restoreWsCells ws rest
        { st with doc := st.doc.setCell ws a (restoredStateD st.doc ws a state) } = _
      rw [@ih { st with doc := st.doc.setCell ws a (restoredStateD st.doc ws a state) }
        (fun p' hp' => h p' (by simp [hp']))]
      rfl

theorem restoreWsLoop5_ok {gs : List (String × List (String × CellState))} {st : St}
    (h : ∀ g ∈ gs, (st.doc.sheets g.1).isSome = true ∧
      ∀ p ∈ g.2, st.doc.rangeOk g.1 p.1 = true) :
    restoreWsLoop5 gs st =
      (.ok (), ⟨applySnapPairs st.doc (flattenGroups gs),
        st.trace ++ gs.map (fun g => .getItem g.1)⟩) := by
  induction gs generalizing st with
  | nil =>
      unfold restoreWsLoop5
      simp [flattenGroups, applySnapPairs]
  | cons g rest ih =>
      unfold restoreWsLoop5 tryCatchR seqR
      have hg := h g (by simp)
      rw [getItemW_ok hg.1]
      simp only [St.emit]
      rw [@restoreWsCells5_ok _ _ (⟨st.doc, st.trace ++ [HEvent.getItem g.1]⟩ : St) hg.2]
      show restoreWsLoop5 rest
        ⟨applySnapPairs st.doc (g.2.map (fun p => (g.1, p))),
          st.trace ++ [HEvent.getItem g.1]⟩ = _
      have hsh : SameShape st.doc
          (applySnapPairs st.doc (g.2.map (fun p => (g.1, p)))) :=
        applySnapPairs_shape _ _
      have hih := @ih (⟨applySnapPairs st.doc (g.2.map (fun p => (g.1, p))),
          st.trace ++ [HEvent.getItem g.1]⟩ : St)
        (by
          intro g' hg'
          refine ⟨?_, ?_⟩
          · rw [hsh.1 g'.1]
            exact (h g' (by simp [hg'])).1
          · intro p hp
            rw [hsh.2.1]
            exact (h g' (by simp [hg'])).2 p hp)
      rw [hih]
      rw [flattenGroups_cons, applySnapPairs_append]
      simp

theorem restoreWsLoop_ok {gs : List (String × List (String × CellState))} {st : St}
    (h : ∀ g ∈ gs, (st.doc.sheets g.1).isSome = true ∧
      ∀ p ∈ g.2, st.doc.rangeOk g.1 p.1 = true) :
    restoreWsLoop gs st =
      (.ok (), ⟨applySnapPairs st.doc (flattenGroups gs),
        st.trace ++ gs.map (fun g => .getItem g.1)⟩) := by
  induction gs generalizing st with
  | nil =>
      unfold restoreWsLoop
      simp [flattenGroups, applySnapPairs]
  | cons g rest ih =>
      unfold restoreWsLoop tryCatchR seqR
      have hg := h g (by simp)
      rw [getItemW_ok hg.1]
      simp only [St.emit]
      rw [@restoreWsCells_ok _ _ (⟨st.doc, st.trace ++ [HEvent.getItem g.1]⟩ : St) hg.2]
      show restoreWsLoop rest
        ⟨applySnapPairs st.doc (g.2.map (fun p => (g.1, p))),
          st.trace ++ [HEvent.getItem g.1]⟩ = _
      have hsh : SameShape st.doc
          (applySnapPairs st.doc (g.2.map (fun p => (g.1, p)))) :=
        applySnapPairs_shape _ _
      have hih := @ih (⟨applySnapPairs st.doc (g.2.map (fun p => (g.1, p))),
          st.trace ++ [HEvent.getItem g.1]⟩ : St)
        (by
          intro g' hg'
          refine ⟨?_, ?_⟩
          · rw [hsh.1 g'.1]
            exact (h g' (by simp [hg'])).1
          · intro p hp
            rw [hsh.2.1]
            exact (h g' (by simp [hg'])).2 p hp)
      rw [hih]
      rw [flattenGroups_cons, applySnapPairs_append]
      simp

/-- The per-group preconditions of a restore pass, derived from
per-snapshot-entry address checks. -/
theorem restoreGroups_good {snapshot : Snapshot} {d : Doc}
    (h : ∀ p ∈ snapshot, addrOkB d p.1 = true) :
    ∀ g ∈ groupPairsT snapshot [], (d.sheets g.1).isSome = true ∧
      ∀ p ∈ g.2, d.rangeOk g.1 p.1 = true := by
  intro g hg
  have hne : g.2 ≠ [] := groupPairsT_sndNe (by simp) g hg
  have hcell : ∀ p ∈ g.2, (d.sheets g.1).isSome = true ∧ d.rangeOk g.1 p.1 = true := by
    intro p hp
    have hmem : (g.1, p) ∈ flattenGroups (groupPairsT snapshot []) :=
      mem_flattenGroups_of_mem hg hp
    rcases (mem_flattenGroups_groupPairsT).mp hmem with hacc | ⟨x, hx, hpx⟩
    · simp [flattenGroups] at hacc
    · rcases addrOkB_parse (h (x, p.2) hx) with ⟨w', c', hp', hs', hr'⟩
      rw [hpx] at hp'
      cases hp'
      exact ⟨hs', hr'⟩
  rcases List.exists_mem_of_ne_nil g.2 hne with ⟨p0, hp0⟩
  exact ⟨(hcell p0 hp0).1, fun p hp => (hcell p hp).2⟩

theorem restoreState5_ok {snapshot : Snapshot} {st : St}
    (h : ∀ p ∈ snapshot, addrOkB st.doc p.1 = true) :
    restoreState5 snapshot st =
      (.ok (), ⟨applySnapPairs st.doc (flattenGroups (groupPairsT snapshot [])),
        st.trace ++ (groupPairsT snapshot []).map (fun g => .getItem g.1) ++ [.syncEv]⟩) := by
  have hparse : ∀ p ∈ snapshot, parseFails p.1 = false :=
    fun p hp => parseFails_false_of_addrOk (h p hp)
  unfold restoreState5
  simp only [groupPairs_eq_total hparse]
  rw [restoreWsLoop5_ok (restoreGroups_good h)]
  rfl

theorem restoreState_ok {snapshot : Snapshot} {st : St}
    (h : ∀ p ∈ snapshot, addrOkB st.doc p.1 = true) :
    restoreState snapshot st =
      (.ok (), ⟨applySnapPairs st.doc (flattenGroups (groupPairsT snapshot [])),
        st.trace ++ (groupPairsT snapshot []).map (fun g => .getItem g.1) ++ [.syncEv]⟩) := by
  have hparse : ∀ p ∈ snapshot, parseFails p.1 = false :=
    fun p hp => parseFails_false_of_addrOk (h p hp)
  unfold restoreState
  simp only [groupPairs_eq_total hparse]
  rw [restoreWsLoop_ok (restoreGroups_good h)]
  rfl

/-! ## Cell-level effect of a restore pass -/

theorem setCell_cellAt_self {d : Doc} {w c : String} {cs : CellState}
    (hs : (d.sheets w).isSome = true) :
    (d.setCell w c cs).cellAt w c = some cs := by
  unfold Doc.setCell Doc.cellAt
  simp only [if_pos rfl]
  rcases Option.isSome_iff_exists.mp hs with ⟨sh, hsh⟩
  rw [hsh]
  simp

theorem setCell_cellAt_ne {d : Doc} {w c w' c' : String} {cs : CellState}
    (hne : ¬(w' = w ∧ c' = c)) :
    (d.setCell w' c' cs).cellAt w c = d.cellAt w c := by
  unfold Doc.setCell Doc.cellAt
  by_cases hw : w = w'
  · subst hw
    have hc : ¬c = c' := fun h => hne ⟨rfl, h.symm⟩
    simp only [if_pos rfl]
    cases hsh : d.sheets w with
    | none => rfl
    | some sh => simp [if_neg hc]
  · simp [if_neg (fun h : w = w' => hw h)]

theorem restoredStateD_setCell (d : Doc) (w0 c0 : String) (cs0 : CellState)
    (w c : String) (cs : CellState) :
    restoredStateD (d.setCell w0 c0 cs0) w c cs = restoredStateD d w c cs := rfl

theorem applySnapPairs_cellAt_nomem {ps : List (String × String × CellState)} {d : Doc}
    {w c : String} (h : ∀ p ∈ ps, ¬(p.1 = w ∧ p.2.1 = c)) :
    (applySnapPairs d ps).cellAt w c = d.cellAt w c := by
  induction ps generalizing d with
  | nil => rfl
  | cons p ps' ih =>
      unfold applySnapPairs
      rw [ih (fun q hq => h q (by simp [hq]))]
      exact setCell_cellAt_ne (h p (by simp))

theorem applySnapPairs_cellAt {ps : List (String × String × CellState)} {d : Doc}
    {w c : String} {S0 : CellState}
    (hs : (d.sheets w).isSome = true)
    (hall : ∀ p ∈ ps, p.1 = w → p.2.1 = c → p.2.2 = S0)
    (hmem : ∃ p ∈ ps, p.1 = w ∧ p.2.1 = c) :
    (applySnapPairs d ps).cellAt w c = some (restoredStateD d w c S0) := by
  induction ps generalizing d with
  | nil =>
      rcases hmem with ⟨p, hp, _⟩
      cases hp
  | cons p ps' ih =>
      unfold applySnapPairs
      by_cases hph : p.1 = w ∧ p.2.1 = c
      · have hS : p.2.2 = S0 := hall p (by simp) hph.1 hph.2
        by_cases hrest : ∃ q ∈ ps', q.1 = w ∧ q.2.1 = c
        · rw [ih (d := d.setCell p.1 p.2.1 (restoredStateD d p.1 p.2.1 p.2.2))
            (by rw [(setCell_shape d p.1 p.2.1 _).1 w]; exact hs)
            (fun q hq h1 h2 => hall q (by simp [hq]) h1 h2) hrest]
          rw [restoredStateD_setCell]
        · rw [applySnapPairs_cellAt_nomem (fun q hq hqc => hrest ⟨q, hq, hqc⟩)]
          rcases hph with ⟨h1, h2⟩
          rw [hS] at *
          rw [h1, h2] at *
          exact congrArg some (congrArg (fun z => restoredStateD d w c z) rfl) ▸
            @setCell_cellAt_self _ _ _ (restoredStateD d w c S0) hs
      · rcases hmem with ⟨q, hq, hqc⟩
        rcases List.mem_cons.mp hq with heq | hq'
        · subst heq
          exact absurd hqc hph
        · rw [ih (d := d.setCell p.1 p.2.1 (restoredStateD d p.1 p.2.1 p.2.2))
            (by rw [(setCell_shape d p.1 p.2.1 _).1 w]; exact hs)
            (fun q' hq'' h1 h2 => hall q' (by simp [hq'']) h1 h2) ⟨q, hq', hqc⟩]
          rw [restoredStateD_setCell]

/-- Restoring a captured state recreates the original cell state, provided
the captured formula was not the empty string and a formula cell's value
agreed with the calculation oracle at capture time (the workbook was
calculated), and the restoring document has the same oracle. -/
theorem restoredStateD_captureState {d dr : Doc} {w c : String} {cs : CellState}
    (henv : dr.env = d.env)
    (hgood : ∀ f, cs.formula = some f → ¬f = "" ∧ cs.value = d.env w c f) :
    restoredStateD dr w c (captureState cs) = cs := by
  rcases cs with ⟨v, sf⟩
  cases sf with
  | none =>
      unfold captureState restoredStateD
      rfl
  | some f =>
      have hf := hgood f rfl
      unfold captureState restoredStateD
      simp only [if_neg hf.1]
      rw [henv, ← hf.2]

/-! ## Membership of snapshot entries and protected addresses -/

theorem rebuildOkB_eq {x w c : String} (h : rebuildOkB x = true)
    (hp : parseCellAddress x = .ok (w, c)) : w ++ "!" ++ c = x := by
  unfold rebuildOkB at h
  rw [hp] at h
  exact eq_of_beq h

theorem snapList_mem {addrs : List String} {d : Doc} {q : String × CellState} :
    q ∈ snapList d addrs ↔
      ∃ p : String × String, (∃ x ∈ addrs, parseCellAddress x = .ok p) ∧
        q = (p.1 ++ "!" ++ p.2,
          captureState ((d.cellAt p.1 p.2).getD { value := Value.undef, formula := none })) := by
  unfold snapList
  rw [List.mem_map]
  constructor
  · rintro ⟨p, hp, rfl⟩
    rcases (mem_flattenGroups_groupAddrsT).mp hp with h | hx
    · simp [flattenGroups] at h
    · exact ⟨p, hx, rfl⟩
  · rintro ⟨p, ⟨x, hx, hpx⟩, rfl⟩
    exact ⟨p, (mem_flattenGroups_groupAddrsT).mpr (Or.inr ⟨x, hx, hpx⟩), rfl⟩

theorem snapTriples_mem {addrs : List String} {d : Doc}
    (hreb : ∀ x ∈ addrs, rebuildOkB x = true) (t : String × String × CellState) :
    t ∈ flattenGroups (groupPairsT (snapList d addrs) []) ↔
      ∃ x ∈ addrs, parseCellAddress x = .ok (t.1, t.2.1) ∧
        t.2.2 = captureState ((d.cellAt t.1 t.2.1).getD { value := Value.undef, formula := none }) := by
  rw [mem_flattenGroups_groupPairsT]
  constructor
  · rintro (h | ⟨key, hkey, hpkey⟩)
    · simp [flattenGroups] at h
    · rcases snapList_mem.mp hkey with ⟨p, ⟨x, hx, hpx⟩, heq⟩
      have hkeyx : key = x := by
        have h1 : key = p.1 ++ "!" ++ p.2 := congrArg Prod.fst heq
        rw [h1, rebuildOkB_eq (hreb x hx) hpx]
      rw [hkeyx] at hpkey
      rw [hpx] at hpkey
      cases hpkey
      refine ⟨x, hx, hpx, ?_⟩
      have h2 := congrArg Prod.snd heq
      exact h2
  · rintro ⟨x, hx, hpx, hstate⟩
    refine Or.inr ⟨x, ?_, hpx⟩
    rw [snapList_mem]
    refine ⟨(t.1, t.2.1), ⟨x, hx, hpx⟩, ?_⟩
    rw [hstate]
    simp only [Prod.mk.injEq]
    exact ⟨(rebuildOkB_eq (hreb x hx) hpx).symm, trivial⟩

theorem mem_addUnique {xs : List String} {x y : String} :
    y ∈ addUnique xs x ↔ y ∈ xs ∨ y = x := by
  unfold addUnique
  by_cases hx : x ∈ xs
  · rw [if_pos hx]
    constructor
    · exact Or.inl
    · rintro (h | rfl)
      · exact h
      · exact hx
  · rw [if_neg hx]
    simp

theorem mem_foldl_addUnique {l : List String} {acc : List String} {y : String} :
    y ∈ l.foldl addUnique acc ↔ y ∈ acc ∨ y ∈ l := by
  induction l generalizing acc with
  | nil => simp
  | cons x xs ih =>
      simp only [List.foldl_cons, ih, mem_addUnique, List.mem_cons]
      tauto

theorem mem_collectAddresses {tc : TestCase} {y : String} :
    y ∈ collectAddresses tc ↔
      y ∈ tc.inputs.map Prod.fst ∨ y ∈ tc.assertions.map Assertion.cell := by
  unfold collectAddresses
  rw [mem_foldl_addUnique]
  simp

theorem mem_suiteAddrs {tcs : List TestCase} {y : String} :
    y ∈ suiteAddrs tcs ↔
      ∃ tc ∈ tcs, y ∈ tc.inputs.map Prod.fst ∨ y ∈ tc.assertions.map Assertion.cell := by
  unfold suiteAddrs
  suffices h : ∀ (acc : List String), y ∈ tcs.foldl
      (fun acc tc => (tc.inputs.map Prod.fst ++ tc.assertions.map Assertion.cell).foldl
        addUnique acc) acc ↔
      y ∈ acc ∨ ∃ tc ∈ tcs, y ∈ tc.inputs.map Prod.fst ∨ y ∈ tc.assertions.map Assertion.cell by
    rw [h []]
    simp
  intro acc
  induction tcs generalizing acc with
  | nil => simp
  | cons tc tcs ih =>
      simp only [List.foldl_cons, ih, mem_foldl_addUnique, List.mem_append, List.mem_cons]
      constructor
      · rintro ((h | h) | ⟨tc', htc', h⟩)
        · exact Or.inl h
        · exact Or.inr ⟨tc, Or.inl rfl, h⟩
        · exact Or.inr ⟨tc', Or.inr htc', h⟩
      · rintro (h | ⟨tc', htc' | htc', h⟩)
        · exact Or.inl (Or.inl h)
        · subst htc'
          exact Or.inl (Or.inr h)
        · exact Or.inr ⟨tc', htc', h⟩

/-! ## Assembly lemmas for the runners -/

theorem protOkB_split {d : Doc} {x : String} (h : protOkB d x = true) :
    addrOkB d x = true ∧ rebuildOkB x = true ∧ cellGoodB d x = true := by
  unfold protOkB at h
  simp only [Bool.and_eq_true] at h
  exact ⟨h.1.1, h.1.2, h.2⟩

theorem cellGoodB_elim {d : Doc} {x w c : String} (h : cellGoodB d x = true)
    (hp : parseCellAddress x = .ok (w, c)) :
    ∃ cs, d.cellAt w c = some cs ∧
      ∀ f, cs.formula = some f → ¬f = "" ∧ cs.value = d.env w c f := by
  simp only [cellGoodB, hp] at h
  cases hcell : d.cellAt w c with
  | none => rw [hcell] at h; cases h
  | some cs =>
      simp only [hcell] at h
      refine ⟨cs, rfl, ?_⟩
      intro f hf
      simp only [hf] at h
      simp only [Bool.and_eq_true] at h
      refine ⟨?_, of_decide_eq_true h.2⟩
      intro hemp
      rw [hemp] at h
      simpa using h.1

theorem runTestBody_ok {tc : TestCase} {st : St}
    (h : ∀ x ∈ collectAddresses tc, addrOkB st.doc x = true) :
    ∃ r st', runTestBody tc st = (.ok r, st') ∧ SameShape st.doc st'.doc := by
  have hinputs : ∀ p ∈ tc.inputs, addrOkB st.doc p.1 = true := by
    intro p hp
    exact h p.1 (mem_collectAddresses.mpr (Or.inl (List.mem_map.mpr ⟨p, hp, rfl⟩)))
  have step1 : ∃ st1, (if tc.inputs.isEmpty then ((.ok (), st) : ERes Unit)
      else applyInputs tc.inputs st) = (.ok (), st1) ∧ SameShape st.doc st1.doc := by
    by_cases he : tc.inputs.isEmpty
    · exact ⟨st, by rw [if_pos he], sameShape_refl _⟩
    · rcases applyInputs_ok hinputs with ⟨st1, h1, hsh1⟩
      exact ⟨st1, by rw [if_neg he]; exact h1, hsh1⟩
  rcases step1 with ⟨st1, h1, hsh1⟩
  unfold runTestBody
  simp only [h1]
  simp only [forceRecalculate_run st1]
  have hsh2 : SameShape st.doc
      ((⟨(st1.emit .recalcEv).doc.recalcAll, (st1.emit .recalcEv).trace ++ [.syncEv]⟩ : St)).doc :=
    sameShape_trans hsh1 (recalcAll_shape _)
  have hcells : ∀ x ∈ tc.assertions.map Assertion.cell,
      addrOkB ((⟨(st1.emit .recalcEv).doc.recalcAll,
        (st1.emit .recalcEv).trace ++ [.syncEv]⟩ : St)).doc x = true := by
    intro x hx
    rw [addrOkB_of_sameShape hsh2]
    exact h x (mem_collectAddresses.mpr (Or.inr hx))
  rcases readOutputs_ok hcells with ⟨outs, st3, h3, hdoc3⟩
  simp only [h3]
  refine ⟨_, st3, rfl, ?_⟩
  rw [show st3.doc = _ from hdoc3]
  exact hsh2

/-- After a well-conditioned snapshot-and-restore cycle, every protected
cell is back to its captured (= original) state, whatever the body did to
the document in between (as long as it preserved the document's shape). -/
theorem restore_snapList_cellAt {addrs : List String} {d dbody : Doc}
    (hall : ∀ y ∈ addrs, protOkB d y = true)
    (hsh : SameShape d dbody)
    {x w c : String} (hx : x ∈ addrs) (hp : parseCellAddress x = .ok (w, c)) :
    (applySnapPairs dbody (flattenGroups (groupPairsT (snapList d addrs) []))).cellAt w c
      = d.cellAt w c := by
  have hreb : ∀ y ∈ addrs, rebuildOkB y = true :=
    fun y hy => (protOkB_split (hall y hy)).2.1
  rcases addrOkB_parse (protOkB_split (hall x hx)).1 with ⟨w', c', hp', hs', hr'⟩
  rw [hp] at hp'
  cases hp'
  rcases cellGoodB_elim (protOkB_split (hall x hx)).2.2 hp with ⟨cs, hcell, hgood⟩
  have hres := @applySnapPairs_cellAt
    (flattenGroups (groupPairsT (snapList d addrs) []))
    dbody w c
    (captureState ((d.cellAt w c).getD { value := Value.undef, formula := none }))
    (by rw [hsh.1 w]; exact hs')
    (by
      intro t ht h1 h2
      rcases (snapTriples_mem hreb t).mp ht with ⟨y, hy, hpy, hstate⟩
      rw [hstate, h1, h2])
    ⟨(w, c, captureState ((d.cellAt w c).getD { value := Value.undef, formula := none })),
      (snapTriples_mem hreb _).mpr ⟨x, hx, hp, rfl⟩, rfl, rfl⟩
  rw [hres]
  rw [hcell]
  simp only [Option.getD_some]
  rw [restoredStateD_captureState hsh.2.2 hgood]

theorem snapList_keys_addrOk {addrs : List String} {d dbody : Doc}
    (hall : ∀ y ∈ addrs, protOkB d y = true) (hsh : SameShape d dbody) :
    ∀ p ∈ snapList d addrs, addrOkB dbody p.1 = true := by
  intro p hp
  rcases snapList_mem.mp hp with ⟨q, ⟨x, hx, hpx⟩, heq⟩
  have h1 : p.1 = q.1 ++ "!" ++ q.2 := congrArg Prod.fst heq
  rw [h1, rebuildOkB_eq ((protOkB_split (hall x hx)).2.1) hpx]
  rw [addrOkB_of_sameShape hsh]
  exact (protOkB_split (hall x hx)).1

/-- `runTest` under good conditions: the body runs to completion, the
`finally` restore executes, and every protected cell is back to its
original state in the final document. -/
theorem runTest_restores {tc : TestCase} {d : Doc} {tr : List HEvent}
    (h : (collectAddresses tc).all (protOkB d) = true) :
    ∃ r stF, runTest tc ⟨d, tr⟩ = (.ok r, stF) ∧
      ∀ x ∈ collectAddresses tc, ∀ w c, parseCellAddress x = .ok (w, c) →
        stF.doc.cellAt w c = d.cellAt w c := by
  have hall : ∀ y ∈ collectAddresses tc, protOkB d y = true := List.all_eq_true.mp h
  have haddr : ∀ y ∈ collectAddresses tc, addrOkB d y = true :=
    fun y hy => (protOkB_split (hall y hy)).1
  have hsnap := @snapshot_ok (collectAddresses tc) ⟨d, tr⟩ haddr
  unfold runTest
  simp only [hsnap]
  rcases @runTestBody_ok tc
    ⟨d, tr ++ (groupAddrsT (collectAddresses tc) []).map (fun g => .getItem g.1)
      ++ [.syncEv]⟩ haddr with ⟨r, st2, hbody, hsh⟩
  unfold tryFinallyR
  simp only [hbody]
  unfold tryCatchR
  simp only [restoreState_ok (snapList_keys_addrOk hall hsh)]
  refine ⟨r, _, rfl, ?_⟩
  intro x hx w c hp
  exact restore_snapList_cellAt hall hsh hx hp

/-! ## The unprotected test body and the suite loop -/

theorem rtwpPhases_shape (tc : TestCase) (st : St) :
    SameShape st.doc ((rtwpPhases tc st).2).doc := by
  unfold rtwpPhases
  rcases h1 : (if tc.inputs.isEmpty then ((.ok (), st) : ERes Unit)
      else applyInputs tc.inputs st) with ⟨r1, st1⟩
  have hsh1 : SameShape st.doc st1.doc := by
    by_cases he : tc.inputs.isEmpty
    · rw [if_pos he] at h1
      cases h1
      exact sameShape_refl _
    · rw [if_neg he] at h1
      have h0 := applyInputs_shape tc.inputs st
      rw [h1] at h0
      exact h0
  try simp only [h1]
  cases r1 with
  | error e => exact hsh1
  | ok a =>
      simp only [forceRecalculate_run st1]
      rcases h3 : readOutputs (tc.assertions.map Assertion.cell)
        (⟨(st1.emit .recalcEv).doc.recalcAll, (st1.emit .recalcEv).trace ++ [.syncEv]⟩ : St)
        with ⟨r3, st3⟩
      have hdoc3 := readOutputs_doc (tc.assertions.map Assertion.cell)
        (⟨(st1.emit .recalcEv).doc.recalcAll, (st1.emit .recalcEv).trace ++ [.syncEv]⟩ : St)
      rw [h3] at hdoc3
      simp only [h3]
      have hsh3 : SameShape st.doc st3.doc := by
        rw [hdoc3]
        exact sameShape_trans hsh1 (recalcAll_shape _)
      cases r3 with
      | error e => exact hsh3
      | ok outs => exact hsh3

theorem runTestWithoutProtection_st (tc : TestCase) (st : St) :
    (runTestWithoutProtection tc st).2 = (rtwpPhases tc st).2 := by
  unfold runTestWithoutProtection
  rcases h : rtwpPhases tc st with ⟨r, st'⟩
  simp only [h]
  cases r with
  | error e => rfl
  | ok outs =>
      cases hev : evalLoop outs tc.assertions <;> simp [hev]

theorem runTestWithoutProtection_shape (tc : TestCase) (st : St) :
    SameShape st.doc ((runTestWithoutProtection tc st).2).doc := by
  rw [runTestWithoutProtection_st]
  exact rtwpPhases_shape tc st

theorem afterTests_shape (tcs : List TestCase) (st : St) :
    SameShape st.doc (afterTests tcs st).doc := by
  induction tcs generalizing st with
  | nil => exact sameShape_refl _
  | cons tc rest ih =>
      unfold afterTests
      exact sameShape_trans (runTestWithoutProtection_shape tc st) (ih _)

theorem suiteLoop_spec (tcs : List TestCase) (i : ℕ) (st : St) :
    ∃ rs pc, suiteLoop tcs i st = (.ok (rs, pc), afterTests tcs st) ∧
      rs.length = tcs.length ∧
      ∀ j : ℕ, rs[j]? = (tcs[j]?).map (fun tc =>
        loopEntry tc (i + j) (afterTests (tcs.take j) st)) := by
  induction tcs generalizing i st with
  | nil =>
      refine ⟨[], 0, rfl, rfl, ?_⟩
      intro j
      simp
  | cons tc rest ih =>
      unfold suiteLoop
      rcases hrun : runTestWithoutProtection tc st with ⟨res, st1⟩
      have hafter : afterTests (tc :: rest) st = afterTests rest st1 := by
        show afterTests rest (runTestWithoutProtection tc st).2 = _
        rw [hrun]
      cases res with
      | ok r =>
          rcases ih (i + 1) st1 with ⟨rs, pc, hloop, hlen, hent⟩
          simp only [hrun, hloop]
          refine ⟨r :: rs, (if r.passed then 1 else 0) + pc, by rw [hafter], by simp [hlen], ?_⟩
          intro j
          cases j with
          | zero => simp [List.take_zero, afterTests, loopEntry, hrun]
          | succ j' =>
              simp only [List.getElem?_cons_succ]
              rw [hent j']
              have harith : i + 1 + j' = i + (j' + 1) := by omega
              have hstate : afterTests (List.take (j' + 1) (tc :: rest)) st
                  = afterTests (List.take j' rest) st1 := by
                simp only [List.take_succ_cons]
                show afterTests (List.take j' rest) (runTestWithoutProtection tc st).2 = _
                rw [hrun]
              rw [harith, hstate]
      | error e =>
          rcases ih (i + 1) st1 with ⟨rs, pc, hloop, hlen, hent⟩
          simp only [hrun, hloop]
          refine ⟨suiteErrEntry tc i e :: rs, pc, by rw [hafter], by simp [hlen], ?_⟩
          intro j
          cases j with
          | zero => simp [List.take_zero, afterTests, loopEntry, hrun]
          | succ j' =>
              simp only [List.getElem?_cons_succ]
              rw [hent j']
              have harith : i + 1 + j' = i + (j' + 1) := by omega
              have hstate : afterTests (List.take (j' + 1) (tc :: rest)) st
                  = afterTests (List.take j' rest) st1 := by
                simp only [List.take_succ_cons]
                show afterTests (List.take j' rest) (runTestWithoutProtection tc st).2 = _
                rw [hrun]
              rw [harith, hstate]

theorem suiteFinally_ok (snap? : Option Snapshot) (st : St) :
    ∃ st', suiteFinally snap? st = (.ok (), st') := by
  cases snap? with
  | none => exact ⟨st, rfl⟩
  | some snap =>
      unfold suiteFinally tryCatchR
      rcases hres : restoreState5 snap st with ⟨r, st'⟩
      cases r with
      | ok a => exact ⟨st', by simp [hres]⟩
      | error e =>
          refine ⟨st'.emit (.logEv ("Failed to restore state: " ++ e)), ?_⟩
          simp [hres, logErrW]

theorem runTestSuite_spec (tcs : List TestCase) (st : St) :
    ∃ sr stF, runTestSuite tcs st = (.ok sr, stF) ∧
      sr.results.length = tcs.length ∧ sr.totalCount = tcs.length ∧
      ∀ j : ℕ, sr.results[j]? = (tcs[j]?).map (fun tc =>
        loopEntry tc j (afterTests (tcs.take j) (suiteSnapshotStep tcs st).2)) := by
  unfold runTestSuite
  rcases hsnap : suiteSnapshotStep tcs st with ⟨snap?, st1⟩
  simp only [hsnap]
  unfold tryFinallyR
  rcases suiteLoop_spec tcs 0 st1 with ⟨rs, pc, hloop, hlen, hent⟩
  simp only [hloop]
  rcases suiteFinally_ok snap? (afterTests tcs st1) with ⟨stF, hfin⟩
  simp only [hfin]
  refine ⟨_, stF, rfl, hlen, rfl, ?_⟩
  intro j
  have h0 := hent j
  simpa using h0

/-- The suite under good conditions: the snapshot is captured, every test
runs (possibly failing individually), the suite-level restore runs once at
the end, and every protected cell is back to its original state. -/
theorem runTestSuite_restores {tcs : List TestCase} {d : Doc} {tr : List HEvent}
    (h : (suiteAddrs tcs).all (protOkB d) = true) :
    ∃ sr stF, runTestSuite tcs ⟨d, tr⟩ = (.ok sr, stF) ∧
      ∀ x ∈ suiteAddrs tcs, ∀ w c, parseCellAddress x = .ok (w, c) →
        stF.doc.cellAt w c = d.cellAt w c := by
  have hall : ∀ y ∈ suiteAddrs tcs, protOkB d y = true := List.all_eq_true.mp h
  have haddr : ∀ y ∈ suiteAddrs tcs, addrOkB d y = true :=
    fun y hy => (protOkB_split (hall y hy)).1
  have hsnap0 := @snapshot_ok (suiteAddrs tcs) ⟨d, tr⟩ haddr
  have hstep : suiteSnapshotStep tcs ⟨d, tr⟩ = (some (snapList d (suiteAddrs tcs)),
      ⟨d, tr ++ (groupAddrsT (suiteAddrs tcs) []).map (fun g => .getItem g.1) ++ [.syncEv]⟩) := by
    unfold suiteSnapshotStep
    simp only [hsnap0]
  unfold runTestSuite
  simp only [hstep]
  unfold tryFinallyR
  rcases suiteLoop_spec tcs 0
    (⟨d, tr ++ (groupAddrsT (suiteAddrs tcs) []).map (fun g => .getItem g.1) ++ [.syncEv]⟩ : St)
    with ⟨rs, pc, hloop, hlen, hent⟩
  simp only [hloop]
  have hshape : SameShape d (afterTests tcs
      (⟨d, tr ++ (groupAddrsT (suiteAddrs tcs) []).map (fun g => .getItem g.1)
        ++ [.syncEv]⟩ : St)).doc :=
    afterTests_shape tcs _
  unfold suiteFinally tryCatchR
  simp only [restoreState5_ok (snapList_keys_addrOk hall hshape)]
  refine ⟨_, _, rfl, ?_⟩
  intro x hx w c hp
  exact restore_snapList_cellAt hall hshape hx hp

/-! ## Capture-failure behaviour -/

theorem runTest_capture_fail {tc : TestCase} {st st' : St} {e : String}
    (h : snapshotWorksheetState (collectAddresses tc) st = (.error e, st')) :
    runTest tc st = (.error ("Failed to snapshot state: " ++ e), st') := by
  unfold runTest
  simp only [h]

theorem suite_capture_fail {tcs : List TestCase} {st st' : St} {e : String}
    (h : snapshotWorksheetState (suiteAddrs tcs) st = (.error e, st')) :
    ∃ rs pc, runTestSuite tcs st =
      (.ok { results := rs, passedCount := pc, totalCount := tcs.length },
       afterTests tcs
         (st'.emit (.logEv ("Warning: Failed to create suite-level snapshot: " ++ e)))) ∧
      rs.length = tcs.length := by
  unfold runTestSuite suiteSnapshotStep
  simp only [h]
  unfold tryFinallyR
  rcases suiteLoop_spec tcs 0
    (st'.emit (.logEv ("Warning: Failed to create suite-level snapshot: " ++ e)))
    with ⟨rs, pc, hloop, hlen, hent⟩
  simp only [hloop]
  exact ⟨rs, pc, rfl, hlen⟩

/-! ## Malformed-address behaviour -/

theorem snapshot_malformed {addrs : List String} {st : St}
    (h : ∃ x ∈ addrs, parseFails x = true) :
    ∃ x ∈ addrs, snapshotWorksheetState addrs st = (.error (invalidAddrMsg x), st) := by
  rcases @groupAddrs_err _ [] h with ⟨x, hx, heq⟩
  refine ⟨x, hx, ?_⟩
  unfold snapshotWorksheetState
  simp only [heq]

theorem applyInputs_malformed {inputs : List (String × Value)} {st : St}
    (h : ∃ p ∈ inputs, parseFails p.1 = true) :
    ∃ p ∈ inputs, applyInputs inputs st = (.error (invalidAddrMsg p.1), st) := by
  rcases @groupPairs_err _ _ [] h with ⟨p, hp, heq⟩
  refine ⟨p, hp, ?_⟩
  unfold applyInputs
  simp only [heq]

theorem restoreState_malformed {snapshot : Snapshot} {st : St}
    (h : ∃ p ∈ snapshot, parseFails p.1 = true) :
    ∃ p ∈ snapshot, restoreState snapshot st = (.error (invalidAddrMsg p.1), st) := by
  rcases @groupPairs_err _ _ [] h with ⟨p, hp, heq⟩
  refine ⟨p, hp, ?_⟩
  unfold restoreState
  simp only [heq]

theorem restoreState5_malformed {snapshot : Snapshot} {st : St}
    (h : ∃ p ∈ snapshot, parseFails p.1 = true) :
    ∃ p ∈ snapshot, restoreState5 snapshot st = (.error (invalidAddrMsg p.1), st) := by
  rcases @groupPairs_err _ _ [] h with ⟨p, hp, heq⟩
  refine ⟨p, hp, ?_⟩
  unfold restoreState5
  simp only [heq]

theorem readCheck_err {cells : List String} {acc : List (String × String × String)} {st : St}
    (h : ∃ x ∈ cells, parseFails x = true) :
    ∃ e st', readCheck cells acc st = (.error e, st') ∧ st'.doc = st.doc ∧
      ∃ ds, st'.trace = st.trace ++ ds ∧ ∀ ev ∈ ds, ∃ w, ev = HEvent.getItem w := by
  induction cells generalizing acc st with
  | nil => rcases h with ⟨x, hx, _⟩; cases hx
  | cons x xs ih =>
      unfold readCheck tryCatchR
      cases hp : parseCellAddress x with
      | error e =>
          simp only [hp]
          exact ⟨_, st, rfl, rfl, [], by simp, by simp⟩
      | ok p =>
          rcases p with ⟨w, c⟩
          simp only [hp]
          have htail : ∃ y ∈ xs, parseFails y = true := by
            rcases h with ⟨y, hy, hf⟩
            rcases List.mem_cons.mp hy with rfl | hy'
            · unfold parseFails at hf
              rw [hp] at hf
              cases hf
            · exact ⟨y, hy', hf⟩
          rcases hg : getItemW w st with ⟨r, st1⟩
          have hst1 : st1 = st.emit (.getItem w) := by
            have h0 := getItemW_st w st
            rw [hg] at h0
            exact h0
          subst hst1
          cases r with
          | error e =>
              simp only [hg]
              exact ⟨_, st.emit (.getItem w), rfl, rfl, [.getItem w], by simp [St.emit],
                by simp⟩
          | ok a =>
              simp only [hg]
              rcases hr : getRangeW w c (st.emit (.getItem w)) with ⟨r2, st2⟩
              have hst2 : st2 = st.emit (.getItem w) := by
                have h0 := getRangeW_st w c (st.emit (.getItem w))
                rw [hr] at h0
                exact h0
              subst hst2
              cases r2 with
              | error e =>
                  simp only [hr]
                  exact ⟨_, st.emit (.getItem w), rfl, rfl, [.getItem w], by simp [St.emit],
                    by simp⟩
              | ok a2 =>
                  simp only [hr]
                  rcases @ih (acc ++ [(x, w, c)]) (st.emit (.getItem w)) htail
                    with ⟨e, st', heq, hdoc, ds, htr, hall⟩
                  refine ⟨e, st', heq, hdoc, .getItem w :: ds, ?_, ?_⟩
                  · rw [htr]
                    simp [St.emit]
                  · intro ev hev
                    rcases List.mem_cons.mp hev with rfl | hev'
                    · exact ⟨w, rfl⟩
                    · exact hall ev hev'

theorem readOutputs_malformed {cells : List String} {st : St}
    (h : ∃ x ∈ cells, parseFails x = true) :
    ∃ e st', readOutputs cells st = (.error e, st') ∧ st'.doc = st.doc ∧
      ∃ ds, st'.trace = st.trace ++ ds ∧ ∀ ev ∈ ds, ∃ w, ev = HEvent.getItem w := by
  rcases @readCheck_err _ [] _ h with ⟨e, st', heq, hdoc, ds, htr, hall⟩
  refine ⟨e, st', ?_, hdoc, ds, htr, hall⟩
  unfold readOutputs
  simp only [heq]

/-! ## The boolean-actual conversion throw -/

theorem convertExpected_ok {actual expected : Value}
    (h : ¬(actual.isBool = true ∧ expected.isString = false)) :
    ∃ v, convertExpected actual expected = .ok v := by
  unfold convertExpected
  by_cases h1 : (actual.isNumber && expected.isString) = true
  · rw [if_pos h1]
    cases expected <;> exact ⟨_, rfl⟩
  · rw [if_neg h1]
    by_cases h2 : actual.isBool = true
    · rw [if_pos h2]
      have hs : expected.isString = true := by
        by_contra hns
        exact h ⟨h2, Bool.not_eq_true _ ▸ (by simpa using hns)⟩
      cases expected with
      | str s => exact ⟨_, rfl⟩
      | num q => cases hs
      | nan => cases hs
      | bool b => cases hs
      | null => cases hs
      | undef => cases hs
    · rw [if_neg h2]
      exact ⟨_, rfl⟩

theorem convertExpected_err {actual expected : Value}
    (hb : actual.isBool = true) (hs : expected.isString = false) :
    convertExpected actual expected =
      .error "TypeError: expectedValue.toLowerCase is not a function" := by
  unfold convertExpected
  have hn : actual.isNumber = false := by
    cases actual <;> first | rfl | cases hb
  rw [if_neg (by rw [hn]; simp)]
  rw [if_pos hb]
  cases expected with
  | str s => cases hs
  | num q => rfl
  | nan => rfl
  | bool b => rfl
  | null => rfl
  | undef => rfl

theorem evalLoop_err {outputs : List (String × Value)} {assertions : List Assertion}
    (h : ∃ a ∈ assertions, (lookupOut outputs a.cell).isBool = true ∧
      a.equals.isString = false) :
    ∃ e, evalLoop outputs assertions = .error e := by
  induction assertions with
  | nil => rcases h with ⟨a, ha, _⟩; cases ha
  | cons a rest ih =>
      unfold evalLoop
      by_cases hoff : (lookupOut outputs a.cell).isBool = true ∧ a.equals.isString = false
      · have hc := @convertExpected_err (lookupOut outputs a.cell) a.equals hoff.1 hoff.2
        simp only [hc]
        exact ⟨_, rfl⟩
      · rcases convertExpected_ok hoff with ⟨v, hv⟩
        simp only [hv]
        have htail : ∃ a' ∈ rest, (lookupOut outputs a'.cell).isBool = true ∧
            a'.equals.isString = false := by
          rcases h with ⟨a', ha', hcond⟩
          rcases List.mem_cons.mp ha' with rfl | ha''
          · exact absurd hcond hoff
          · exact ⟨a', ha'', hcond⟩
        rcases ih htail with ⟨e, he⟩
        simp only [he]
        exact ⟨e, rfl⟩

/-! ## Snapshot key set -/

theorem rebuildOkB_parse {x : String} (h : rebuildOkB x = true) :
    ∃ w c, parseCellAddress x = .ok (w, c) := by
  unfold rebuildOkB at h
  cases hp : parseCellAddress x with
  | ok p => exact ⟨p.1, p.2, rfl⟩
  | error e => rw [hp] at h; cases h

theorem snapList_keys_iff {addrs : List String} {d : Doc}
    (hreb : ∀ x ∈ addrs, rebuildOkB x = true) (y : String) :
    (∃ cs, (y, cs) ∈ snapList d addrs) ↔ y ∈ addrs := by
  constructor
  · rintro ⟨cs, hmem⟩
    rcases snapList_mem.mp hmem with ⟨p, ⟨x, hx, hpx⟩, heq⟩
    have h1 : y = p.1 ++ "!" ++ p.2 := congrArg Prod.fst heq
    rw [h1, rebuildOkB_eq (hreb x hx) hpx]
    exact hx
  · intro hy
    rcases rebuildOkB_parse (hreb y hy) with ⟨w, c, hp⟩
    refine ⟨captureState ((d.cellAt w c).getD { value := Value.undef, formula := none }), ?_⟩
    rw [snapList_mem]
    refine ⟨(w, c), ⟨y, hy, hp⟩, ?_⟩
    simp only [Prod.mk.injEq]
    exact ⟨(rebuildOkB_eq (hreb y hy) hp).symm, trivial⟩

/-! ## Finaliser behaviour of the protected regions -/

theorem tryFinallyR_fst {α : Type} (m : St → ERes α) (fin : St → ERes Unit) (st : St)
    (hfin : ∀ s, (fin s).1 = Except.ok ()) : (tryFinallyR m fin st).1 = (m st).1 := by
  unfold tryFinallyR
  rcases hm : m st with ⟨r, st1⟩
  rcases hf : fin st1 with ⟨rf, st2⟩
  have h0 := hfin st1
  rw [hf] at h0
  have hrf : rf = Except.ok () := h0
  subst hrf
  cases r <;> simp [hm, hf]

theorem catchRestore_ok (snapshot : Snapshot) (s : St) :
    ((tryCatchR (restoreState snapshot)
      (fun e => logErrW ("Warning: Failed to restore state: " ++ e))) s).1 = Except.ok () := by
  unfold tryCatchR
  rcases hr : restoreState snapshot s with ⟨r, st1⟩
  cases r with
  | ok a => rfl
  | error e => rfl

theorem runTest_capture_fail2 {tc : TestCase} {st : St} {e : String}
    (h : (snapshotWorksheetState (collectAddresses tc) st).1 = .error e) :
    runTest tc st = (.error ("Failed to snapshot state: " ++ e),
      (snapshotWorksheetState (collectAddresses tc) st).2) := by
  rcases hs : snapshotWorksheetState (collectAddresses tc) st with ⟨r, st1⟩
  have hr : r = .error e := by rw [hs] at h; exact h
  subst hr
  simp only [hs]
  exact runTest_capture_fail hs

theorem suite_capture_fail2 {tcs : List TestCase} {st : St} {e : String}
    (h : (snapshotWorksheetState (suiteAddrs tcs) st).1 = .error e) :
    ∃ rs pc, runTestSuite tcs st =
      (.ok { results := rs, passedCount := pc, totalCount := tcs.length },
       afterTests tcs (((snapshotWorksheetState (suiteAddrs tcs) st).2).emit
         (.logEv ("Warning: Failed to create suite-level snapshot: " ++ e)))) ∧
      rs.length = tcs.length := by
  rcases hs : snapshotWorksheetState (suiteAddrs tcs) st with ⟨r, st1⟩
  have hr : r = .error e := by rw [hs] at h; exact h
  subst hr
  have h2 := suite_capture_fail hs
  simpa only [hs] using h2

/-! ## Concrete workbooks, test cases and snapshots -/

/-- A sheet whose cell `B2` holds the plain number 100.5. -/
def sheetS : String → CellState := fun a =>
  if a = "B2" then { value := .num (mkRat 201 2), formula := none }
  else { value := .str "", formula := none }

/-- A workbook with one sheet `S` (cell `S!B2` = 100.5), every local address
accepted by the host. -/
def doc0 : Doc :=
  { sheets := fun w => if w = "S" then some sheetS else none
    rangeOk := fun _ _ => true
    env := fun _ _ _ => .num 0 }

/-- A test asserting `S!B2` equals 100 with tolerance 0.5 — within tolerance
of the workbook's actual 100.5. -/
def tc2 : TestCase :=
  { name := "t", inputs := [], assertions := [⟨"S!B2", .num 100, some (mkRat 1 2), none⟩] }

/-- A sheet whose cell `B2` holds the boolean `TRUE`. -/
def sheetB : String → CellState := fun a =>
  if a = "B2" then { value := .bool true, formula := none }
  else { value := .str "", formula := none }

/-- A workbook with one sheet `S` whose `B2` is a boolean. -/
def docB : Doc :=
  { sheets := fun w => if w = "S" then some sheetB else none
    rangeOk := fun _ _ => true
    env := fun _ _ _ => .num 0 }

/-- A test asserting the boolean cell `S!B2` equals the JSON boolean `true`. -/
def tcB : TestCase :=
  { name := "b", inputs := [], assertions := [⟨"S!B2", .bool true, none, none⟩] }

/-- A workbook with one sheet `A` (all cells 1) and no sheet `Missing`. -/
def docA : Doc :=
  { sheets := fun w => if w = "A" then some (fun _ => { value := .num 1, formula := none }) else none
    rangeOk := fun _ _ => true
    env := fun _ _ _ => .num 0 }

/-- A test that writes `A!B1 := 42` but asserts on the nonexistent sheet
`Missing`, so snapshot capture fails. -/
def tc3 : TestCase :=
  { name := "t", inputs := [("A!B1", .num 42)], assertions := [⟨"Missing!C1", .num 1, none, none⟩] }

/-- A workbook with one sheet `S` (`S!B2` = 7) whose host rejects the local
address `BAD` on `S` (so a `getRange` on it throws mid-restore). -/
def docR : Doc :=
  { sheets := fun w => if w = "S" then some (fun a => if a = "B2" then { value := .num 7, formula := none } else { value := .num 0, formula := none }) else none
    rangeOk := fun w a => !(w = "S" && a = "BAD")
    env := fun _ _ _ => .num 0 }

/-- A snapshot restoring the bad cell first, then `S!B2 := 5`, both on the
same sheet. -/
def snapR : Snapshot := [("S!BAD", ⟨.num 1, none⟩), ("S!B2", ⟨.num 5, none⟩)]

/-! ## The claims -/

/-- Claim C1: whenever the snapshot capture succeeds, `runTest`'s outcome is
exactly the protected body's outcome — the `finally` restore (whose failures
are caught and logged) never replaces it and never re-throws; and on a
well-conditioned calculated workbook both `runTest` and `runTestSuite`
return normally with every protected cell back at its pre-test
`{value, formula}` in the final document. -/
theorem always_restore {tc : TestCase} {tcs : List TestCase} {d : Doc} {tr : List HEvent}
    (h1 : (collectAddresses tc).all (protOkB d) = true)
    (h2 : (suiteAddrs tcs).all (protOkB d) = true) :
    (∀ st snap st1, snapshotWorksheetState (collectAddresses tc) st = (.ok snap, st1) →
       (runTest tc st).1 = (runTestBody tc st1).1) ∧
    (∃ r stF, runTest tc ⟨d, tr⟩ = (.ok r, stF) ∧
       ∀ x ∈ collectAddresses tc, ∀ w c, parseCellAddress x = .ok (w, c) →
         stF.doc.cellAt w c = d.cellAt w c) ∧
    (∃ sr stF, runTestSuite tcs ⟨d, tr⟩ = (.ok sr, stF) ∧
       ∀ x ∈ suiteAddrs tcs, ∀ w c, parseCellAddress x = .ok (w, c) →
         stF.doc.cellAt w c = d.cellAt w c) := by
  refine ⟨?_, runTest_restores h1, runTestSuite_restores h2⟩
  intro st snap st1 hsnap
  unfold runTest
  simp only [hsnap]
  exact tryFinallyR_fst _ _ _ (fun s => catchRestore_ok snap s)

/-- Claim C2: `evaluateAssertions` does compare numerics with
`|actual - expected| <= tolerance` (100 vs 100 tol 0 passes, 100.5 vs 100
tol 0.5 passes, 100.51 vs 100 tol 0.5 fails) — but the suite path does NOT:
`runTestSuite` routes assertions through `runTestWithoutProtection`, which
stores the tolerance yet decides `passed` by strict equality, so the
within-tolerance workbook value 100.5 against expected 100 (tolerance 0.5)
is reported failed by the suite. -/
theorem tolerance_ignored_on_suite_path :
    (evaluateAssertions [("S!B2", .num 100)] [⟨"S!B2", .num 100, some 0, none⟩]).1 = true ∧
    (evaluateAssertions [("S!B2", .num (mkRat 201 2))]
      [⟨"S!B2", .num 100, some (mkRat 1 2), none⟩]).1 = true ∧
    (evaluateAssertions [("S!B2", .num (mkRat 10051 100))]
      [⟨"S!B2", .num 100, some (mkRat 1 2), none⟩]).1 = false ∧
    (match (runTestSuite [tc2] ⟨doc0, []⟩).1 with
      | .ok sr => sr.results.map (fun r => r.passed)
      | .error _ => []) = [false] := by decide

/-- Claim C3 (amended): when snapshot capture fails, `runTest` aborts with a
`Failed to snapshot state` error, the document unchanged and only read-only
`getItem` host calls made, and no restore is attempted; `runTestSuite`
however only logs a warning and CONTINUES — it returns a normal suite result
whose final state is that of running every test unprotected, with no restore
at the end. -/
theorem capture_failure_behaviour {tc : TestCase} {st : St} {e : String}
    (h : (snapshotWorksheetState (collectAddresses tc) st).1 = .error e)
    {tcs : List TestCase} {st' : St} {e' : String}
    (h' : (snapshotWorksheetState (suiteAddrs tcs) st').1 = .error e') :
    (runTest tc st = (.error ("Failed to snapshot state: " ++ e),
        (snapshotWorksheetState (collectAddresses tc) st).2) ∧
      ((snapshotWorksheetState (collectAddresses tc) st).2).doc = st.doc ∧
      ∃ ds, ((snapshotWorksheetState (collectAddresses tc) st).2).trace = st.trace ++ ds ∧
        ∀ ev ∈ ds, ∃ w, ev = HEvent.getItem w) ∧
    (∃ rs pc, runTestSuite tcs st' =
        (.ok { results := rs, passedCount := pc, totalCount := tcs.length },
         afterTests tcs (((snapshotWorksheetState (suiteAddrs tcs) st').2).emit
           (.logEv ("Warning: Failed to create suite-level snapshot: " ++ e')))) ∧
      rs.length = tcs.length) := by
  refine ⟨⟨runTest_capture_fail2 h, snapshot_doc _ _, ?_⟩, suite_capture_fail2 h'⟩
  rcases snapshot_err_trace h with ⟨ds, h2, hall⟩
  exact ⟨ds, by rw [h2], hall⟩

/-- Claim C4: `runTestSuite` always returns a suite result with exactly one
entry per test case, in order; entry `j` is exactly what running test `j` in
the state left by tests `0..j-1` produces — a normal result is recorded
as-is, and a test that throws is recorded as
`{ passed := false, assertionResults := [], error := some e }` while the
remaining tests still run and report their own outcomes. -/
theorem suite_reporting_independence (tcs : List TestCase) (st : St) :
    (∃ sr stF, runTestSuite tcs st = (.ok sr, stF) ∧
      sr.results.length = tcs.length ∧ sr.totalCount = tcs.length ∧
      ∀ j : ℕ, sr.results[j]? = (tcs[j]?).map (fun tc =>
        loopEntry tc j (afterTests (tcs.take j) (suiteSnapshotStep tcs st).2))) ∧
    (∀ tc i s e s2, runTestWithoutProtection tc s = (.error e, s2) →
      loopEntry tc i s = suiteErrEntry tc i e ∧
      (suiteErrEntry tc i e).passed = false ∧
      (suiteErrEntry tc i e).assertionResults = [] ∧
      (suiteErrEntry tc i e).error = some e) ∧
    (∀ tc i s r s2, runTestWithoutProtection tc s = (.ok r, s2) →
      loopEntry tc i s = r) := by
  refine ⟨runTestSuite_spec tcs st, ?_, ?_⟩
  · intro tc i s e s2 hrun
    refine ⟨?_, rfl, rfl, rfl⟩
    unfold loopEntry
    simp only [hrun]
  · intro tc i s r s2 hrun
    unfold loopEntry
    simp only [hrun]

/-- Claim C5: in `restoreState` of `src/scripts/test-runner.js` the catch is
per WORKSHEET, so a failure restoring one cell (`S!BAD`, rejected by the
host) aborts restoration of the remaining cell of the same sheet — `S!B2`
keeps its mid-test value 7 instead of its snapshot value 5; the
`src/unnamed/part_005` variant with the per-cell catch restores `S!B2 := 5`.
Neither restore propagates an error out. -/
theorem restore_per_cell_isolation_contrast :
    docR.rangeOk "S" "BAD" = false ∧
    ((restoreState snapR ⟨docR, []⟩).1 = .ok () ∧
     (restoreState snapR ⟨docR, []⟩).2.doc.cellAt "S" "B2" = some ⟨.num 7, none⟩) ∧
    ((restoreState5 snapR ⟨docR, []⟩).1 = .ok () ∧
     (restoreState5 snapR ⟨docR, []⟩).2.doc.cellAt "S" "B2" = some ⟨.num 5, none⟩) := by
  decide

/-- Claim C6: restoring one snapshot entry writes through `getRange` and
leaves exactly `restoredStateD`: the captured formula is written back (its
value re-derived by the host's calculation) exactly when it is present and
non-empty, and the captured raw value is written (clearing any formula)
when the captured formula is absent or the empty string. -/
theorem restore_formula_precedence {ws a : String} {state : CellState} {st : St}
    (hr : st.doc.rangeOk ws a = true) :
    restoreCellWrite ws a state st =
      (.ok (), { st with doc := st.doc.setCell ws a (restoredStateD st.doc ws a state) }) ∧
    (∀ f, state.formula = some f → ¬f = "" →
       restoredStateD st.doc ws a state = { value := st.doc.env ws a f, formula := some f }) ∧
    (state.formula = none →
       restoredStateD st.doc ws a state = { value := state.value, formula := none }) ∧
    (state.formula = some "" →
       restoredStateD st.doc ws a state = { value := state.value, formula := none }) := by
  refine ⟨restoreCellWrite_ok hr, ?_, ?_, ?_⟩
  · intro f hf hne
    simp only [restoredStateD, hf, if_neg hne]
  · intro hf
    simp only [restoredStateD, hf]
  · intro hf
    simp [restoredStateD, hf]

/-- Claim C7: a single test's protected-address set is exactly the union of
its input keys and its assertion cells; the suite's set is the union of that
across all test cases; the suite captures ONE snapshot from the pre-suite
document before the first test, and the keys of that snapshot are exactly
the protected addresses. -/
theorem protected_address_union {tcs : List TestCase} {d : Doc} {tr : List HEvent}
    (hgood : (suiteAddrs tcs).all (protOkB d) = true) :
    (∀ tc y, y ∈ collectAddresses tc ↔
       y ∈ tc.inputs.map Prod.fst ∨ y ∈ tc.assertions.map Assertion.cell) ∧
    (∀ y, y ∈ suiteAddrs tcs ↔ ∃ tc ∈ tcs,
       y ∈ tc.inputs.map Prod.fst ∨ y ∈ tc.assertions.map Assertion.cell) ∧
    suiteSnapshotStep tcs ⟨d, tr⟩ =
      (some (snapList d (suiteAddrs tcs)),
       ⟨d, tr ++ (groupAddrsT (suiteAddrs tcs) []).map (fun g => .getItem g.1) ++ [.syncEv]⟩) ∧
    (∀ y, (∃ cs, (y, cs) ∈ snapList d (suiteAddrs tcs)) ↔ y ∈ suiteAddrs tcs) := by
  have hall : ∀ y ∈ suiteAddrs tcs, protOkB d y = true := List.all_eq_true.mp hgood
  refine ⟨fun tc y => mem_collectAddresses, fun y => mem_suiteAddrs, ?_, ?_⟩
  · unfold suiteSnapshotStep
    simp only [@snapshot_ok (suiteAddrs tcs) ⟨d, tr⟩
      (fun y hy => (protOkB_split (hall y hy)).1)]
  · intro y
    exact snapList_keys_iff (fun x hx => (protOkB_split (hall x hx)).2.1) y

/-- Claim C8 (amended): a malformed address (not exactly one `!`) makes
snapshot capture, input application and both restore variants fail with the
`Invalid cell address format` error BEFORE any host call — their final state
is exactly the input state; `readOutputs` also fails (wrapping the same
message) but only after issuing host `getItem` calls for the well-formed
addresses that precede the malformed one, because its parse sits inside the
per-cell loop. -/
theorem malformed_address_rejection {addrs : List String} {st : St}
    (h1 : ∃ x ∈ addrs, parseFails x = true)
    {inputs : List (String × Value)} {st2 : St}
    (h2 : ∃ p ∈ inputs, parseFails p.1 = true)
    {snapshot : Snapshot} {st3 : St}
    (h3 : ∃ p ∈ snapshot, parseFails p.1 = true)
    {cells : List String} {st4 : St}
    (h4 : ∃ x ∈ cells, parseFails x = true) :
    (∃ x ∈ addrs, snapshotWorksheetState addrs st = (.error (invalidAddrMsg x), st)) ∧
    (∃ p ∈ inputs, applyInputs inputs st2 = (.error (invalidAddrMsg p.1), st2)) ∧
    (∃ p ∈ snapshot, restoreState snapshot st3 = (.error (invalidAddrMsg p.1), st3)) ∧
    (∃ p ∈ snapshot, restoreState5 snapshot st3 = (.error (invalidAddrMsg p.1), st3)) ∧
    (∃ e st5, readOutputs cells st4 = (.error e, st5) ∧ st5.doc = st4.doc ∧
      ∃ ds, st5.trace = st4.trace ++ ds ∧ ∀ ev ∈ ds, ∃ w, ev = HEvent.getItem w) := by
  refine ⟨snapshot_malformed h1, applyInputs_malformed h2, restoreState_malformed h3,
    restoreState5_malformed h3, ?_⟩
  rcases readOutputs_malformed h4 with ⟨e, st5, heq, hdoc, ds, htr, hall⟩
  exact ⟨e, st5, heq, hdoc, ds, htr, hall⟩

/-- Claim C9: the suite's result entries do NOT all carry the test's name
under `testName`: an entry from a normally completed test carries it under
`name` with no `testName` key (so a consumer reading `result.testName` gets
`undefined`), while only the thrown-test entries carry `testName`. -/
theorem suite_result_shape_key :
    (match (runTestSuite [tc2] ⟨doc0, []⟩).1 with
      | .ok sr => sr.results.map (fun r => (r.testName, r.name, r.error))
      | .error _ => []) = [(none, some "t", none)] ∧
    (match (runTestSuite [tcB] ⟨docB, []⟩).1 with
      | .ok sr => sr.results.map (fun r => (r.testName, r.name, r.error.isSome))
      | .error _ => []) = [(some "b", none, true)] := by decide

/-- Claim C10: in the suite evaluation path, an assertion whose actual cell
value is a boolean while the expected value is not a string makes the
expected-value conversion throw a `TypeError`, so the whole test aborts:
`runTestWithoutProtection` returns an error, and the suite records the test
as `{ passed := false, assertionResults := [], error := some e }` — the
assertion is never evaluated to passed. -/
theorem boolean_actual_conversion_throws {tc : TestCase} {st : St}
    {outputs : List (String × Value)}
    (hph : (rtwpPhases tc st).1 = .ok outputs)
    (h : ∃ a ∈ tc.assertions, (lookupOut outputs a.cell).isBool = true ∧
      a.equals.isString = false) :
    ∃ e, (runTestWithoutProtection tc st).1 = .error e ∧
      (∀ i, loopEntry tc i st = suiteErrEntry tc i e) ∧
      (∀ i, (suiteErrEntry tc i e).passed = false ∧
        (suiteErrEntry tc i e).assertionResults = [] ∧
        (suiteErrEntry tc i e).error = some e) := by
  rcases evalLoop_err h with ⟨e, he⟩
  have hrwp : ∀ st5, rtwpPhases tc st = (.ok outputs, st5) →
      runTestWithoutProtection tc st = (.error e, st5) := by
    intro st5 hr
    unfold runTestWithoutProtection
    simp only [hr, he]
  rcases hr : rtwpPhases tc st with ⟨r, st5⟩
  have hro : r = .ok outputs := by rw [hr] at hph; exact hph
  subst hro
  have hmain := hrwp st5 hr
  refine ⟨e, by rw [hmain], ?_, fun i => ⟨rfl, rfl, rfl⟩⟩
  intro i
  unfold loopEntry
  simp only [hmain]

/-! ## Counterexamples -/

/-- The suite half of claim C3 fails on the code: with sheet `Missing`
absent, the suite-level snapshot capture throws, yet `runTestSuite` runs the
test anyway and the input write `A!B1 := 42` persists in the final document
(it was 1 before the call). -/
theorem suite_mutates_after_capture_failure :
    (snapshotWorksheetState (suiteAddrs [tc3]) ⟨docA, []⟩).1 =
      .error "Failed to access worksheet \"Missing\": Worksheet not found: Missing" ∧
    docA.cellAt "A" "B1" = some ⟨.num 1, none⟩ ∧
    (runTestSuite [tc3] ⟨docA, []⟩).2.doc.cellAt "A" "B1" = some ⟨.num 42, none⟩ := by decide

/-- The `readOutputs` part of claim C8 fails on the code: fed
`["A!B1", "Sheet1B2"]`, it does fail on the malformed `"Sheet1B2"`, but only
after the host call `getItem "A"` for the preceding well-formed address has
been made (the trace of the run records it). -/
theorem readOutputs_host_call_before_malformed_failure :
    parseFails "Sheet1B2" = true ∧
    (readOutputs ["A!B1", "Sheet1B2"] ⟨docA, []⟩).1 =
      .error ("Failed to read output from cell \"Sheet1B2\": " ++ invalidAddrMsg "Sheet1B2") ∧
    (readOutputs ["A!B1", "Sheet1B2"] ⟨docA, []⟩).2.trace = [HEvent.getItem "A"] := by decide

/-! ## Witnesses -/

/-- Witness for `always_restore` at `tc2` / `doc0`. -/
theorem always_restore_witness :
    ((collectAddresses tc2).all (protOkB doc0) = true ∧
     (suiteAddrs [tc2]).all (protOkB doc0) = true) ∧
    ((∀ st snap st1, snapshotWorksheetState (collectAddresses tc2) st = (.ok snap, st1) →
        (runTest tc2 st).1 = (runTestBody tc2 st1).1) ∧
     (∃ r stF, runTest tc2 ⟨doc0, []⟩ = (.ok r, stF) ∧
        ∀ x ∈ collectAddresses tc2, ∀ w c, parseCellAddress x = .ok (w, c) →
          stF.doc.cellAt w c = doc0.cellAt w c) ∧
     (∃ sr stF, runTestSuite [tc2] ⟨doc0, []⟩ = (.ok sr, stF) ∧
        ∀ x ∈ suiteAddrs [tc2], ∀ w c, parseCellAddress x = .ok (w, c) →
          stF.doc.cellAt w c = doc0.cellAt w c)) :=
  ⟨⟨by decide, by decide⟩, always_restore (by decide) (by decide)⟩

/-- Witness for `capture_failure_behaviour` at `tc3` / `docA` (sheet
`Missing` absent). -/
theorem capture_failure_behaviour_witness :
    ((snapshotWorksheetState (collectAddresses tc3) ⟨docA, []⟩).1 =
       .error "Failed to access worksheet \"Missing\": Worksheet not found: Missing" ∧
     (snapshotWorksheetState (suiteAddrs [tc3]) ⟨docA, []⟩).1 =
       .error "Failed to access worksheet \"Missing\": Worksheet not found: Missing") ∧
    ((runTest tc3 ⟨docA, []⟩ = (.error ("Failed to snapshot state: " ++
          "Failed to access worksheet \"Missing\": Worksheet not found: Missing"),
        (snapshotWorksheetState (collectAddresses tc3) ⟨docA, []⟩).2) ∧
      ((snapshotWorksheetState (collectAddresses tc3) ⟨docA, []⟩).2).doc = docA ∧
      ∃ ds, ((snapshotWorksheetState (collectAddresses tc3) ⟨docA, []⟩).2).trace = [] ++ ds ∧
        ∀ ev ∈ ds, ∃ w, ev = HEvent.getItem w) ∧
     (∃ rs pc, runTestSuite [tc3] ⟨docA, []⟩ =
        (.ok { results := rs, passedCount := pc, totalCount := [tc3].length },
         afterTests [tc3] (((snapshotWorksheetState (suiteAddrs [tc3]) ⟨docA, []⟩).2).emit
           (.logEv ("Warning: Failed to create suite-level snapshot: " ++
             "Failed to access worksheet \"Missing\": Worksheet not found: Missing")))) ∧
       rs.length = [tc3].length)) :=
  ⟨⟨by decide, by decide⟩, capture_failure_behaviour (by decide) (by decide)⟩

/-- Witness for `restore_formula_precedence` at a cell of `doc0` with the
captured state `{ value := 5, formula := some "F" }`. -/
theorem restore_formula_precedence_witness :
    (⟨doc0, []⟩ : St).doc.rangeOk "S" "B2" = true ∧
    (restoreCellWrite "S" "B2" ⟨.num 5, some "F"⟩ ⟨doc0, []⟩ =
      (.ok (), ⟨doc0.setCell "S" "B2" (restoredStateD doc0 "S" "B2" ⟨.num 5, some "F"⟩), []⟩) ∧
     (∀ f, (⟨Value.num 5, some "F"⟩ : CellState).formula = some f → ¬f = "" →
        restoredStateD doc0 "S" "B2" ⟨.num 5, some "F"⟩ =
          { value := doc0.env "S" "B2" f, formula := some f }) ∧
     ((⟨Value.num 5, some "F"⟩ : CellState).formula = none →
        restoredStateD doc0 "S" "B2" ⟨.num 5, some "F"⟩ =
          { value := .num 5, formula := none }) ∧
     ((⟨Value.num 5, some "F"⟩ : CellState).formula = some "" →
        restoredStateD doc0 "S" "B2" ⟨.num 5, some "F"⟩ =
          { value := .num 5, formula := none })) :=
  ⟨by decide, restore_formula_precedence (by decide)⟩

/-- Witness for `protected_address_union` at the one-test suite `[tc2]` on
`doc0`. -/
theorem protected_address_union_witness :
    (suiteAddrs [tc2]).all (protOkB doc0) = true ∧
    ((∀ tc y, y ∈ collectAddresses tc ↔
        y ∈ tc.inputs.map Prod.fst ∨ y ∈ tc.assertions.map Assertion.cell) ∧
     (∀ y, y ∈ suiteAddrs [tc2] ↔ ∃ tc ∈ [tc2],
        y ∈ tc.inputs.map Prod.fst ∨ y ∈ tc.assertions.map Assertion.cell) ∧
     suiteSnapshotStep [tc2] ⟨doc0, []⟩ =
       (some (snapList doc0 (suiteAddrs [tc2])),
        ⟨doc0, [] ++ (groupAddrsT (suiteAddrs [tc2]) []).map (fun g => .getItem g.1)
          ++ [.syncEv]⟩) ∧
     (∀ y, (∃ cs, (y, cs) ∈ snapList doc0 (suiteAddrs [tc2])) ↔ y ∈ suiteAddrs [tc2])) :=
  ⟨by decide, protected_address_union (by decide)⟩

/-- Witness for `malformed_address_rejection` at the malformed address
`"Sheet1B2"` fed to all four operations on `docA`. -/
theorem malformed_address_rejection_witness :
    ((∃ x ∈ ["Sheet1B2"], parseFails x = true) ∧
     (∃ p ∈ [(("Sheet1B2" : String), Value.num 1)], parseFails p.1 = true) ∧
     (∃ p ∈ [(("Sheet1B2" : String), (⟨Value.num 1, none⟩ : CellState))],
        parseFails p.1 = true) ∧
     (∃ x ∈ ["A!B1", "Sheet1B2"], parseFails x = true)) ∧
    ((∃ x ∈ ["Sheet1B2"], snapshotWorksheetState ["Sheet1B2"] ⟨docA, []⟩ =
        (.error (invalidAddrMsg x), ⟨docA, []⟩)) ∧
     (∃ p ∈ [(("Sheet1B2" : String), Value.num 1)],
        applyInputs [("Sheet1B2", Value.num 1)] ⟨docA, []⟩ =
          (.error (invalidAddrMsg p.1), ⟨docA, []⟩)) ∧
     (∃ p ∈ [(("Sheet1B2" : String), (⟨Value.num 1, none⟩ : CellState))],
        restoreState [("Sheet1B2", ⟨Value.num 1, none⟩)] ⟨docA, []⟩ =
          (.error (invalidAddrMsg p.1), ⟨docA, []⟩)) ∧
     (∃ p ∈ [(("Sheet1B2" : String), (⟨Value.num 1, none⟩ : CellState))],
        restoreState5 [("Sheet1B2", ⟨Value.num 1, none⟩)] ⟨docA, []⟩ =
          (.error (invalidAddrMsg p.1), ⟨docA, []⟩)) ∧
     (∃ e st5, readOutputs ["A!B1", "Sheet1B2"] ⟨docA, []⟩ = (.error e, st5) ∧
        st5.doc = docA ∧
        ∃ ds, st5.trace = [] ++ ds ∧ ∀ ev ∈ ds, ∃ w, ev = HEvent.getItem w)) :=
  ⟨⟨by decide, by decide, by decide, by decide⟩,
   malformed_address_rejection (by decide) (by decide) (by decide) (by decide)⟩

/-- Witness for `boolean_actual_conversion_throws` at `tcB` / `docB` (the
boolean cell `S!B2` asserted equal to the JSON boolean `true`). -/
theorem boolean_actual_conversion_throws_witness :
    ((rtwpPhases tcB ⟨docB, []⟩).1 = .ok [("S!B2", Value.bool true)] ∧
     ∃ a ∈ tcB.assertions, (lookupOut [("S!B2", Value.bool true)] a.cell).isBool = true ∧
       a.equals.isString = false) ∧
    (∃ e, (runTestWithoutProtection tcB ⟨docB, []⟩).1 = .error e ∧
      (∀ i, loopEntry tcB i ⟨docB, []⟩ = suiteErrEntry tcB i e) ∧
      (∀ i, (suiteErrEntry tcB i e).passed = false ∧
        (suiteErrEntry tcB i e).assertionResults = [] ∧
        (suiteErrEntry tcB i e).error = some e)) :=
  ⟨⟨by decide, by decide⟩,
   @boolean_actual_conversion_throws tcB ⟨docB, []⟩ [("S!B2", Value.bool true)]
     (by decide) (by decide)⟩

end XcelTest
